import Mathlib

/-!
Shallow embedding of the tool-calling orchestration core of the RAG chatbot
repository: `backend/ai_generator.py` (class `AIGenerator`) and
`backend/search_tools.py` (`CourseSearchTool`, `CourseOutlineTool`,
`ToolManager`).

External collaborators — the Anthropic model client and the vector store —
are modelled as function-valued parameters.  State that the Python code
mutates in place (the growing message list, the per-tool `last_sources`
fields) is threaded explicitly.  The orchestrator is embedded twice: once
with an abstract tool executor (`generate_response`), and once with the
concrete `ToolManager` registry state threaded through every tool call
(`generate_response_st`), mirroring how `AIGenerator.generate_response`
calls `ToolManager.execute_tool` on a shared mutable manager.
-/

namespace Rag

/-- A JSON-ish value appearing in a tool invocation's keyword arguments
(the model collaborator produces these as `content_block.input`). -/
inductive Value where
  | str (s : String)
  | int (n : Int)
  deriving DecidableEq

/-- Keyword-argument mapping of a tool invocation (`content_block.input`). -/
abbrev Input := List (String × Value)

/-- One content block of a model completion: either a plain text block
(which has a `.text` attribute) or a tool-invocation request
(`type == "tool_use"`, carrying an id, a tool name and an input map). -/
inductive ContentBlock where
  | text (text : String)
  | tool_use (id : String) (name : String) (input : Input)
  deriving DecidableEq

/-- A structured model completion: its stop reason and its ordered content
blocks (`response.stop_reason`, `response.content`). -/
structure Completion where
  stop_reason : String
  content : List ContentBlock
  deriving DecidableEq

/-- One tool-result dict as built by `AIGenerator._execute_all_tools`:
`{"type": "tool_result", "tool_use_id": ..., "content": ...}` (the constant
`type` tag is left implicit). -/
structure ToolResultBlock where
  tool_use_id : String
  content : String
  deriving DecidableEq

/-- Content of one transcript turn: the seed query is plain text, an
assistant turn holds the completion's raw content blocks, and a tool-result
turn holds the list of tool-result dicts. -/
inductive MsgContent where
  | text (s : String)
  | blocks (bs : List ContentBlock)
  | toolResults (rs : List ToolResultBlock)
  deriving DecidableEq

/-- One transcript turn: a role (`"user"` or `"assistant"`) and content. -/
structure Message where
  role : String
  content : MsgContent
  deriving DecidableEq

/-- The request the orchestrator sends to the model collaborator: the system
string, the message list, and whether tool schemas (plus the automatic
tool-choice directive) were attached.  The fixed sampling parameters of
`base_params` (model name, temperature 0, max tokens) are constants and are
not represented. -/
structure ApiParams where
  system : String
  messages : List Message
  toolsOffered : Bool
  deriving DecidableEq

/-- The model collaborator (`self.client.messages.create`): a raised
exception is `Except.error` with the exception's string rendering. -/
abbrev Client := ApiParams → Except String Completion

/-- Abstract tool executor as `generate_response` sees it:
`tool_manager.execute_tool(name, **input)`, where a raised exception is
`Except.error` with its string rendering. -/
abbrev ToolExecutor := String → Input → Except String String

/-- Python truthiness of an optional string (`None` and `""` are falsy). -/
def truthyStr : Option String → Bool
  | none => false
  | some s => s != ""

/-- Python truthiness of an optional integer (`None` and `0` are falsy). -/
def truthyInt : Option Int → Bool
  | none => false
  | some n => n != 0

/-- Python truthiness of an optional list (`None` and `[]` are falsy),
used for the `if tools:` checks. -/
def truthyList {α : Type} : Option (List α) → Bool
  | none => false
  | some [] => false
  | some (_ :: _) => true

namespace AIGenerator

/-- Maximum number of tool calling rounds allowed per query
(`AIGenerator.MAX_TOOL_ROUNDS`). -/
def MAX_TOOL_ROUNDS : Nat := 2

/-- Static system prompt (`AIGenerator.SYSTEM_PROMPT`). -/
def SYSTEM_PROMPT : String := " You are an AI assistant specialized in course materials and educational content with access to comprehensive search tools for course information.

Available Tools:
1. **Content Search Tool** - For searching within course materials and lessons
2. **Course Outline Tool** - For retrieving complete course structure and metadata

Tool Usage Guidelines:
- Use the **content search tool** for questions about specific course content or detailed educational materials
- Use the **course outline tool** for questions about course structure, lesson lists, or course metadata
- **You can use tools multiple times** to gather complete information before answering
- **Search iteratively**: If initial results are insufficient or you need to compare information, use tools again with refined parameters
- Example: First get a course outline to identify relevant lessons, then search specific lesson content for details
- Synthesize tool results into accurate, fact-based responses
- If a tool yields no results, state this clearly without offering alternatives

Response Protocol:
- **General knowledge questions**: Answer using existing knowledge without using tools
- **Course content questions**: Use content search tool (multiple times if needed), then answer
- **Course outline questions**: Use course outline tool to retrieve full course details (title, link, lesson list)
- **Multi-part questions**: Use tools sequentially to gather all needed information before answering
- **No meta-commentary**:
 - Provide direct answers only — no reasoning process, tool explanations, or question-type analysis
 - Do not mention \"based on the search results\" or \"using the tool\"

When returning course outlines, include:
- Course title
- Course link
- Complete lesson list with numbers and titles

All responses must be:
1. **Brief, Concise and focused** - Get to the point quickly
2. **Educational** - Maintain instructional value
3. **Clear** - Use accessible language
4. **Example-supported** - Include relevant examples when they aid understanding
Provide only the direct answer to what was asked.
"

/-- System content built at the top of `generate_response`: the static
prompt, extended with a labeled previous-conversation section when
`conversation_history` is truthy. -/
def system_content_of (conversation_history : Option String) : String :=
  match conversation_history with
  | some h =>
    if h != "" then SYSTEM_PROMPT ++ "\n\nPrevious conversation:\n" ++ h
    else SYSTEM_PROMPT
  | none => SYSTEM_PROMPT

/-- Scan for the first content block having a `text` attribute, shared by the
loops inside `AIGenerator._extract_text` and `AIGenerator._handle_tool_error`
(text blocks have the attribute, tool-use blocks do not). -/
def firstTextBlock : List ContentBlock → Option String
  | [] => none
  | .text t :: _ => some t
  | .tool_use _ _ _ :: rest => firstTextBlock rest

/-- Embedding of `AIGenerator._extract_text` (Python name `_extract_text`):
`none` models a falsy `response` argument. -/
def extract_text : Option Completion → String
  | none => "I was unable to generate a response."
  | some response =>
    match firstTextBlock response.content with
    | some t => t
    | none => "I was unable to generate a text response."

/-- Embedding of `AIGenerator._handle_tool_error` (Python `_handle_tool_error`):
uses the first text block Claude produced before requesting tools, if any. -/
def handle_tool_error (response : Completion) (error_message : String) : String :=
  match firstTextBlock response.content with
  | some t =>
    t ++ "\n\n[Note: Unable to complete search due to error: " ++ error_message ++ "]"
  | none => "I encountered an error while searching: " ++ error_message

/-- Character-level prefix test (Python `str.startswith`, Lean's
`String.startsWith`), written over the character lists so that it is
kernel-computable. -/
def listStarts : List Char → List Char → Bool
  | [], _ => true
  | _ :: _, [] => false
  | c :: cs, d :: ds => c == d && listStarts cs ds

/-- Python `s.startswith(pre)`. -/
def strStarts (pre s : String) : Bool := listStarts pre.data s.data

/-- Error classification applied inline in `_execute_all_tools`: a string
result starting with `"Error:"` or `"Tool"` is treated as an application
level error. -/
def errorShaped (s : String) : Bool :=
  strStarts "Error:" s || strStarts "Tool" s

/-- Embedding of `AIGenerator._execute_all_tools` (Python
`_execute_all_tools`) over an abstract tool executor.  `Except.error` is the
`(None, error_message)` return, `Except.ok` the `(tool_results, None)`
return; the Python accumulation into `tool_results` preserving encounter
order is rendered as a cons on the recursive call. -/
def execute_all_tools (execute_tool : ToolExecutor) :
    List ContentBlock → Except String (List ToolResultBlock)
  | [] => .ok []
  | .text _ :: rest => execute_all_tools execute_tool rest
  | .tool_use id name input :: rest =>
    match execute_tool name input with
    | .error e => .error ("Tool execution exception: " ++ e)
    | .ok tool_result =>
      if errorShaped tool_result then
        .error ("Tool execution failed: " ++ tool_result)
      else
        match execute_all_tools execute_tool rest with
        | .error e => .error e
        | .ok results => .ok (⟨id, tool_result⟩ :: results)

/-- Outcome of the `while round_count < MAX_TOOL_ROUNDS` loop of
`generate_response`: either an early `return` from inside the loop (with the
returned string) or falling out of the loop (`break` or the guard failing),
carrying `current_response`.  Alongside, the instrumentation needed by the
specification: number of model-completion calls made, number of
tool-execution batches started, the final `round_count`, and the message
list. -/
inductive LoopOut where
  | ret (result : String) (calls : Nat) (batches : Nat) (rounds : Nat)
      (messages : List Message)
  | brk (current : Option Completion) (calls : Nat) (batches : Nat) (rounds : Nat)
      (messages : List Message)
  deriving DecidableEq

/-- The tool-calling loop of `generate_response` (lines 97–136).  The guard
`round_count < MAX_TOOL_ROUNDS` is rendered as structural recursion on
`fuel = MAX_TOOL_ROUNDS - round_count`; each continuing iteration increments
`round_count` and decrements `fuel`. -/
def tool_loop (client : Client) (system_content : String) (toolsOffered : Bool)
    (tool_manager : Option ToolExecutor) :
    Nat → List Message → Option Completion → Nat → Nat → Nat → LoopOut
  | 0, messages, current_response, round_count, calls, batches =>
    .brk current_response calls batches round_count messages
  | fuel + 1, messages, _current_response, round_count, calls, batches =>
    match client ⟨system_content, messages, toolsOffered⟩ with
    | .error e =>
      .ret ("I encountered an error while processing your request: " ++ e)
        (calls + 1) batches round_count messages
    | .ok response =>
      if response.stop_reason != "tool_use" then
        .brk (some response) (calls + 1) batches round_count messages
      else
        match tool_manager with
        | none =>
          .ret (extract_text (some response)) (calls + 1) batches round_count messages
        | some execute_tool =>
          match execute_all_tools execute_tool response.content with
          | .error execution_error =>
            .ret (handle_tool_error response execution_error)
              (calls + 1) (batches + 1) round_count messages
          | .ok tool_results =>
            tool_loop client system_content toolsOffered tool_manager fuel
              (messages ++ [⟨"assistant", .blocks response.content⟩,
                            ⟨"user", .toolResults tool_results⟩])
              (some response) (round_count + 1) (calls + 1) (batches + 1)

/-- Observable outcome of one `generate_response` run: the returned string
plus the instrumentation (model-completion call count, tool-batch count,
final round count, final message list). -/
structure RunTrace where
  result : String
  calls : Nat
  toolBatches : Nat
  rounds : Nat
  messages : List Message
  deriving DecidableEq

/-- Embedding of `AIGenerator.generate_response` (lines 64–157): seeds the
transcript with the user query, runs the bounded tool loop, then — when the
loop exhausted the round cap while the last completion still requested tool
use — issues the one forced final completion call before extracting text. -/
def generate_response (client : Client) (query : String)
    (conversation_history : Option String) (tools : Option (List String))
    (tool_manager : Option ToolExecutor) : RunTrace :=
  let system_content := system_content_of conversation_history
  let toolsOffered := truthyList tools
  let messages : List Message := [⟨"user", .text query⟩]
  match tool_loop client system_content toolsOffered tool_manager
      MAX_TOOL_ROUNDS messages none 0 0 0 with
  | .ret result calls batches rounds msgs =>
    ⟨result, calls, batches, rounds, msgs⟩
  | .brk current calls batches rounds msgs =>
    match current with
    | some response =>
      if response.stop_reason == "tool_use" && decide (MAX_TOOL_ROUNDS ≤ rounds) then
        match client ⟨system_content, msgs, toolsOffered⟩ with
        | .error e =>
          ⟨"I encountered an error while generating final response: " ++ e,
            calls + 1, batches, rounds, msgs⟩
        | .ok final_response =>
          ⟨extract_text (some final_response), calls + 1, batches, rounds, msgs⟩
      else
        ⟨extract_text (some response), calls, batches, rounds, msgs⟩
    | none => ⟨extract_text none, calls, batches, rounds, msgs⟩

end AIGenerator

/-- A display source record built by `CourseSearchTool._format_results`:
a dict with a `"text"` key and an optional `"url"` key. -/
structure Source where
  text : String
  url : Option String
  deriving DecidableEq

/-- One metadata dict attached to a search hit (`results.metadata` entries);
`none` models a missing key, read with `.get`. -/
structure Metadata where
  course_title : Option String
  lesson_number : Option Int
  deriving DecidableEq

/-- The `SearchResults` object returned by the vector store collaborator
(`vector_store.py`, outside the embedded core).  `error` is the `.error`
attribute and `is_empty` the value its `.is_empty()` method would return;
both are data supplied by the collaborator. -/
structure SearchResults where
  documents : List String
  metadata : List Metadata
  error : Option String
  is_empty : Bool
  deriving DecidableEq

/-- One parsed lesson entry of a course's `lessons_json` catalog metadata;
`none` models a missing key, read with `.get`. -/
structure LessonEntry where
  lesson_number : Option Int
  lesson_title : Option String
  lesson_link : Option String
  deriving DecidableEq

/-- One catalog metadata dict as `CourseOutlineTool.execute` reads it.  The
`lessons` field stands for the already `json.loads`-parsed `lessons_json`
payload (the serialization round-trip lives in the collaborator boundary);
`none` models a missing key. -/
structure CatalogMetadata where
  title : Option String
  course_link : Option String
  instructor : Option String
  lessons : Option (List LessonEntry)
  deriving DecidableEq

/-- The vector store collaborator as the two tools consume it:
`search`, `get_lesson_link`, `_resolve_course_name` (written
`resolve_course_name`), and the `course_catalog.get(ids=[...])` access
(`catalog_get`, whose `Except.error` models a raised exception inside the
`try` of `CourseOutlineTool.execute`, and whose `Option (List ...)` models
the falsy-results / missing-or-empty-metadatas checks).  `max_results` is
`none` when the store object has no such attribute (`hasattr` check). -/
structure VectorStore where
  search : String → Option String → Option Int → SearchResults
  get_lesson_link : String → Int → Option String
  max_results : Option Nat
  resolve_course_name : String → Option String
  catalog_get : String → Except String (Option (List CatalogMetadata))

namespace CourseSearchTool

/-- Body of one iteration of the `zip` loop in
`CourseSearchTool._format_results`: the formatted chunk and the source
record for one document/metadata pair. -/
def format_one (store : VectorStore) (doc : String) (meta : Metadata) :
    String × Source :=
  let course_title := meta.course_title.getD "unknown"
  let lesson_part :=
    match meta.lesson_number with
    | some n => " - Lesson " ++ toString n
    | none => ""
  let header := "[" ++ course_title ++ lesson_part ++ "]"
  let source_text := course_title ++ lesson_part
  let lesson_link :=
    match meta.lesson_number with
    | some n => store.get_lesson_link course_title n
    | none => none
  let source : Source :=
    if truthyStr lesson_link then ⟨source_text, lesson_link⟩
    else ⟨source_text, none⟩
  (header ++ "\n" ++ doc, source)

/-- Embedding of `CourseSearchTool._format_results` (Python
`_format_results`): returns the joined formatted text together with the
source list that the Python code assigns to `self.last_sources`. -/
def format_results (store : VectorStore) (results : SearchResults) :
    String × List Source :=
  let pairs := (results.documents.zip results.metadata).map
    (fun dm => format_one store dm.1 dm.2)
  (String.intercalate "\n\n" (pairs.map Prod.fst), pairs.map Prod.snd)

/-- Embedding of `CourseSearchTool.execute`: takes the tool's current
`last_sources` field and returns the result string together with the field's
value after the call (the Python method mutates `self.last_sources` only via
`_format_results`). -/
def execute (store : VectorStore) (last_sources : List Source) (query : String)
    (course_name : Option String) (lesson_number : Option Int) :
    String × List Source :=
  let results := store.search query course_name lesson_number
  if truthyStr results.error then
    (results.error.getD "", last_sources)
  else if results.is_empty then
    let filter_info :=
      (if truthyStr course_name then
        " in course '" ++ course_name.getD "" ++ "'"
      else "") ++
      (if truthyInt lesson_number then
        " in lesson " ++ toString (lesson_number.getD 0)
      else "")
    if store.max_results == some 0 then
      ("Configuration error: MAX_RESULTS is set to 0. No search results can be returned. Please update config.py to set MAX_RESULTS to a positive value (e.g., 5).",
        last_sources)
    else
      ("No relevant content found" ++ filter_info ++ ".", last_sources)
  else
    format_results store results

end CourseSearchTool

namespace CourseOutlineTool

/-- One formatted lesson line of the outline (`lesson_line` construction in
`CourseOutlineTool.execute`). -/
def lesson_line (lesson : LessonEntry) : String :=
  let lesson_num :=
    match lesson.lesson_number with
    | some n => toString n
    | none => "?"
  let lesson_title := lesson.lesson_title.getD "Unknown"
  let base := "  " ++ lesson_num ++ ". " ++ lesson_title
  if truthyStr lesson.lesson_link then
    base ++ " (" ++ lesson.lesson_link.getD "" ++ ")"
  else base

/-- Embedding of `CourseOutlineTool.execute`: resolve the course name, fetch
catalog metadata, and format the outline; a collaborator exception surfaces
as the `"Error retrieving course outline: ..."` string. -/
def execute (store : VectorStore) (course_name : String) : String :=
  let resolved := store.resolve_course_name course_name
  if !truthyStr resolved then
    "No course found matching '" ++ course_name ++ "'"
  else
    let resolved_course_title := resolved.getD ""
    match store.catalog_get resolved_course_title with
    | .error e => "Error retrieving course outline: " ++ e
    | .ok none =>
      "No metadata found for course '" ++ resolved_course_title ++ "'"
    | .ok (some []) =>
      "No metadata found for course '" ++ resolved_course_title ++ "'"
    | .ok (some (metadata :: _)) =>
      let course_title := metadata.title.getD "Unknown"
      let course_link := metadata.course_link.getD "No link available"
      let instructor := metadata.instructor.getD "Unknown"
      let lessons := metadata.lessons.getD []
      let outline_parts :=
        ["Course: " ++ course_title, "Instructor: " ++ instructor,
         "Course Link: " ++ course_link, "", "Lessons:"]
      let outline_parts :=
        if lessons.isEmpty then outline_parts ++ ["  No lessons available"]
        else outline_parts ++ lessons.map lesson_line
      String.intercalate "\n" outline_parts

end CourseOutlineTool

/-- A tool object as held in `ToolManager.tools`: a `CourseSearchTool`
(which carries a mutable `last_sources` field) or a `CourseOutlineTool`
(which has no such attribute). -/
inductive RegisteredTool where
  | search (store : VectorStore) (last_sources : List Source)
  | outline (store : VectorStore)

namespace ToolManager

/-- The manager's `self.tools` dict: name-keyed, iterated in registration
(insertion) order. -/
abbrev Tools := List (String × RegisteredTool)

/-- Keyword-argument lookup helper for the binding of `**kwargs` to the
typed `execute` signatures. -/
def argOf (input : Input) (key : String) : Option Value :=
  (input.find? (fun kv => kv.1 == key)).map Prod.snd

/-- Python call semantics for `CourseSearchTool.execute(**kwargs)`: `query`
is required, `course_name` and `lesson_number` optional; an unexpected
keyword or a shape the modelled collaborator cannot consume is a raised
`TypeError`-style exception. -/
def course_search_bind (input : Input) :
    Except String (String × Option String × Option Int) :=
  if input.any (fun kv =>
      kv.1 != "query" && kv.1 != "course_name" && kv.1 != "lesson_number") then
    .error "execute() got an unexpected keyword argument"
  else
    match argOf input "query", argOf input "course_name",
        argOf input "lesson_number" with
    | some (.str q), none, none => .ok (q, none, none)
    | some (.str q), some (.str c), none => .ok (q, some c, none)
    | some (.str q), none, some (.int n) => .ok (q, none, some n)
    | some (.str q), some (.str c), some (.int n) => .ok (q, some c, some n)
    | none, _, _ => .error "execute() missing 1 required argument: 'query'"
    | _, _, _ => .error "execute() received an argument of unexpected type"

/-- Python call semantics for `CourseOutlineTool.execute(**kwargs)`:
`course_name` is required. -/
def course_outline_bind (input : Input) : Except String String :=
  if input.any (fun kv => kv.1 != "course_name") then
    .error "execute() got an unexpected keyword argument"
  else
    match argOf input "course_name" with
    | some (.str c) => .ok c
    | some (.int _) => .error "execute() received an argument of unexpected type"
    | none => .error "execute() missing 1 required argument: 'course_name'"

/-- Dispatch `tool.execute(**kwargs)` on one registered tool object,
returning the result (or raised exception) and the tool's state after the
call. -/
def run_tool : RegisteredTool → Input → Except String String × RegisteredTool
  | .search store last_sources, input =>
    match course_search_bind input with
    | .error e => (.error e, .search store last_sources)
    | .ok (q, cn, ln) =>
      let out := CourseSearchTool.execute store last_sources q cn ln
      (.ok out.1, .search store out.2)
  | .outline store, input =>
    match course_outline_bind input with
    | .error e => (.error e, .outline store)
    | .ok cn => (.ok (CourseOutlineTool.execute store cn), .outline store)

/-- Embedding of `ToolManager.execute_tool`: an unregistered name yields the
`"Tool '<name>' not found"` string (no exception); otherwise the named
tool's `execute` runs and its state is updated in place. -/
def execute_tool : Tools → String → Input → Except String String × Tools
  | [], tool_name, _ =>
    (.ok ("Tool '" ++ tool_name ++ "' not found"), [])
  | (key, tool) :: rest, tool_name, input =>
    if key == tool_name then
      let out := run_tool tool input
      (out.1, (key, out.2) :: rest)
    else
      let out := execute_tool rest tool_name input
      (out.1, (key, tool) :: out.2)

/-- Membership test `tool_name not in self.tools` of `execute_tool`. -/
def lookup_tool : Tools → String → Option RegisteredTool
  | [], _ => none
  | (key, tool) :: rest, tool_name =>
    if key == tool_name then some tool else lookup_tool rest tool_name

/-- Embedding of `ToolManager.get_last_sources`: first registered tool that
has a truthy (non-empty) `last_sources` attribute, in registration order. -/
def get_last_sources : Tools → List Source
  | [] => []
  | (_, .search _ last_sources) :: rest =>
    if last_sources.isEmpty then get_last_sources rest else last_sources
  | (_, .outline _) :: rest => get_last_sources rest

/-- State of one dict entry after `ToolManager.reset_sources` visits it. -/
def reset_entry : String × RegisteredTool → String × RegisteredTool
  | (name, .search store _) => (name, .search store [])
  | (name, .outline store) => (name, .outline store)

/-- Embedding of `ToolManager.reset_sources`: every tool with a
`last_sources` attribute has it set to the empty list. -/
def reset_sources (tools : Tools) : Tools := tools.map reset_entry

/-- Verification helper (not source code): the `last_sources` value of the
tool at position `k` of the registry, `[]` for outline tools and past the
end. -/
def sources_at (tools : Tools) (k : Nat) : List Source :=
  match tools.get? k with
  | some (_, .search _ last_sources) => last_sources
  | _ => []

end ToolManager

namespace AIGenerator

/-- Embedding of `AIGenerator._execute_all_tools` specialised to a concrete
`ToolManager` registry whose tool state is threaded through the calls
(the Python manager object is shared and mutated in place). -/
def execute_all_tools_st :
    List ContentBlock → ToolManager.Tools →
      Except String (List ToolResultBlock) × ToolManager.Tools
  | [], tools => (.ok [], tools)
  | .text _ :: rest, tools => execute_all_tools_st rest tools
  | .tool_use id name input :: rest, tools =>
    match ToolManager.execute_tool tools name input with
    | (.error e, tools') =>
      (.error ("Tool execution exception: " ++ e), tools')
    | (.ok tool_result, tools') =>
      if errorShaped tool_result then
        (.error ("Tool execution failed: " ++ tool_result), tools')
      else
        match execute_all_tools_st rest tools' with
        | (.error e, tools'') => (.error e, tools'')
        | (.ok results, tools'') => (.ok (⟨id, tool_result⟩ :: results), tools'')

/-- The tool-calling loop of `generate_response`, threading the concrete
`ToolManager` registry state (the `tool_manager` argument is present). -/
def tool_loop_st (client : Client) (system_content : String)
    (toolsOffered : Bool) :
    Nat → List Message → Option Completion → Nat → Nat → Nat →
      ToolManager.Tools → LoopOut × ToolManager.Tools
  | 0, messages, current_response, round_count, calls, batches, tools =>
    (.brk current_response calls batches round_count messages, tools)
  | fuel + 1, messages, _current_response, round_count, calls, batches, tools =>
    match client ⟨system_content, messages, toolsOffered⟩ with
    | .error e =>
      (.ret ("I encountered an error while processing your request: " ++ e)
        (calls + 1) batches round_count messages, tools)
    | .ok response =>
      if response.stop_reason != "tool_use" then
        (.brk (some response) (calls + 1) batches round_count messages, tools)
      else
        match execute_all_tools_st response.content tools with
        | (.error execution_error, tools') =>
          (.ret (handle_tool_error response execution_error)
            (calls + 1) (batches + 1) round_count messages, tools')
        | (.ok tool_results, tools') =>
          tool_loop_st client system_content toolsOffered fuel
            (messages ++ [⟨"assistant", .blocks response.content⟩,
                          ⟨"user", .toolResults tool_results⟩])
            (some response) (round_count + 1) (calls + 1) (batches + 1) tools'

/-- Embedding of `AIGenerator.generate_response` called with a concrete
`ToolManager` (the registry state is returned alongside the run trace). -/
def generate_response_st (client : Client) (query : String)
    (conversation_history : Option String) (tools : Option (List String))
    (manager : ToolManager.Tools) : RunTrace × ToolManager.Tools :=
  let system_content := system_content_of conversation_history
  let toolsOffered := truthyList tools
  let messages : List Message := [⟨"user", .text query⟩]
  match tool_loop_st client system_content toolsOffered
      MAX_TOOL_ROUNDS messages none 0 0 0 manager with
  | (.ret result calls batches rounds msgs, manager') =>
    (⟨result, calls, batches, rounds, msgs⟩, manager')
  | (.brk current calls batches rounds msgs, manager') =>
    match current with
    | some response =>
      if response.stop_reason == "tool_use" && decide (MAX_TOOL_ROUNDS ≤ rounds) then
        match client ⟨system_content, msgs, toolsOffered⟩ with
        | .error e =>
          (⟨"I encountered an error while generating final response: " ++ e,
            calls + 1, batches, rounds, msgs⟩, manager')
        | .ok final_response =>
          (⟨extract_text (some final_response), calls + 1, batches, rounds, msgs⟩,
            manager')
      else
        (⟨extract_text (some response), calls, batches, rounds, msgs⟩, manager')
    | none => (⟨extract_text none, calls, batches, rounds, msgs⟩, manager')

/-- Verification helper (not source code): the tool-invocation-request
blocks of a content list, in encounter order. -/
def toolUses : List ContentBlock → List (String × String × Input)
  | [] => []
  | .text _ :: rest => toolUses rest
  | .tool_use id name input :: rest => (id, name, input) :: toolUses rest

/-- Verification helper: the payload of a successful executor outcome. -/
def result_of : Except String String → String
  | .ok s => s
  | .error _ => ""

/-- Verification helper: the opposite transcript role. -/
def other_role (r : String) : String := if r == "user" then "assistant" else "user"

/-- Verification helper: the roles of a message list strictly alternate,
starting with `r`. -/
def alternatesFrom : String → List Message → Bool
  | _, [] => true
  | r, m :: rest => m.role == r && alternatesFrom (other_role r) rest

/-- Verification helper: the two transcript turns appended by one completed
tool round — an assistant turn holding the completion's raw content, then a
user turn holding the tool-result list. -/
def round_turns (p : List ContentBlock × List ToolResultBlock) : List Message :=
  [⟨"assistant", .blocks p.1⟩, ⟨"user", .toolResults p.2⟩]

/-- Verification helper: the seed transcript of a run — a single user turn
holding the query. -/
def seed_messages (query : String) : List Message := [⟨"user", .text query⟩]

/-- Verification helper: the transcript after appending one completed tool
round to `msgs`. -/
def after_round (msgs : List Message) (r : Completion)
    (ts : List ToolResultBlock) : List Message :=
  msgs ++ [⟨"assistant", .blocks r.content⟩, ⟨"user", .toolResults ts⟩]

/-- Verification helper: number of model-completion calls recorded in a loop
outcome. -/
def LoopOut.callsOf : LoopOut → Nat
  | .ret _ calls _ _ _ => calls
  | .brk _ calls _ _ _ => calls

/-- Verification helper: message list recorded in a loop outcome. -/
def LoopOut.messagesOf : LoopOut → List Message
  | .ret _ _ _ _ messages => messages
  | .brk _ _ _ _ messages => messages

end AIGenerator

namespace ToolManager

/-- Verification helper: relates the registries before (`σ`, `σ'`) and after
(`τ`, `τ'`) two parallel runs — at every registry position, either both runs
ended with the same `last_sources` value, or both runs left their respective
initial value untouched. -/
def WroteOrKept (σ σ' τ τ' : Tools) : Prop :=
  ∀ k, sources_at τ k = sources_at τ' k ∨
    (sources_at τ k = sources_at σ k ∧ sources_at τ' k = sources_at σ' k)

end ToolManager

/-! Concrete fixtures used by the witness theorems. -/

namespace Demo

open AIGenerator

/-- A tool executor that always succeeds with a non-error-shaped payload. -/
def exec_ok : ToolExecutor := fun _ _ => .ok "course content result"

/-- A tool executor whose result is error-shaped. -/
def exec_bad : ToolExecutor := fun _ _ => .ok "Error: search failed"

/-- A completion requesting one tool, with leading explanatory text. -/
def t1 : Completion :=
  ⟨"tool_use", [.text "Searching first.",
    .tool_use "tu1" "search_course_content" [("query", .str "mcp")]]⟩

/-- A completion requesting one tool, with no text block. -/
def t2 : Completion :=
  ⟨"tool_use", [.tool_use "tu2" "search_course_content" [("query", .str "mcp lesson 2")]]⟩

/-- A plain final-answer completion. -/
def final : Completion := ⟨"end_turn", [.text "Here is the answer."]⟩

/-- Another plain final-answer completion. -/
def plain : Completion := ⟨"end_turn", [.text "Direct answer."]⟩

/-- A completion requesting a tool name that no registry holds. -/
def unknownReq : Completion :=
  ⟨"tool_use", [.text "Let me check.", .tool_use "x1" "bogus_tool" []]⟩

/-- Deterministic client: tool_use on the first two calls, then a final
answer (dispatches on transcript length: 1, 3, then 5 messages). -/
def client3 : Client := fun p =>
  if p.messages.length ≤ 1 then .ok t1
  else if p.messages.length ≤ 3 then .ok t2
  else .ok final

/-- Deterministic client that always answers directly. -/
def clientPlain : Client := fun _ => .ok plain

/-- Client whose first call raises. -/
def clientErr : Client := fun _ => .error "boom"

/-- Client that raises only on the third (forced final) call. -/
def client2err : Client := fun p =>
  if p.messages.length ≤ 1 then .ok t1
  else if p.messages.length ≤ 3 then .ok t2
  else .error "rate limited"

/-- Client that always requests an unregistered tool. -/
def clientUnknown : Client := fun _ => .ok unknownReq

/-- A non-empty search hit from the vector store. -/
def searchHit : SearchResults := ⟨["doc one"], [⟨some "Intro", some 2⟩], none, false⟩

/-- An empty search result. -/
def searchEmpty : SearchResults := ⟨[], [], none, true⟩

/-- A search result carrying an error. -/
def searchErr : SearchResults := ⟨[], [], some "Error: db down", false⟩

/-- A deterministic vector store: queries `"err"` and `"empty"` produce the
error and empty results, anything else one hit. -/
def store0 : VectorStore :=
  ⟨fun q _ _ => if q == "err" then searchErr
    else if q == "empty" then searchEmpty else searchHit,
   fun _ _ => some "https://example.com/lesson2",
   some 5,
   fun _ => some "Intro",
   fun _ => .ok (some [⟨some "Intro", some "https://example.com", some "Ada", some []⟩])⟩

/-- A registry holding a search tool (with one recorded source) and an
outline tool. -/
def manager0 : ToolManager.Tools :=
  [("search_course_content", .search store0 [⟨"Intro - Lesson 2", some "https://example.com/lesson2"⟩]),
   ("get_course_outline", .outline store0)]

end Demo

/-! ## Helper lemmas about the orchestration loop -/

open AIGenerator

/-- One loop iteration when the model collaborator raises. -/
theorem tool_loop_step_err (client : Client) (s : String) (T : Bool)
    (tm : Option ToolExecutor) (fuel : Nat) (msgs : List Message)
    (cur : Option Completion) (rc calls batches : Nat) (e : String)
    (h : client ⟨s, msgs, T⟩ = .error e) :
    tool_loop client s T tm (fuel + 1) msgs cur rc calls batches =
      .ret ("I encountered an error while processing your request: " ++ e)
        (calls + 1) batches rc msgs := by
  simp [tool_loop, h]

/-- One loop iteration when the completion is a direct answer. -/
theorem tool_loop_step_done (client : Client) (s : String) (T : Bool)
    (tm : Option ToolExecutor) (fuel : Nat) (msgs : List Message)
    (cur : Option Completion) (rc calls batches : Nat) (r : Completion)
    (h : client ⟨s, msgs, T⟩ = .ok r) (h2 : r.stop_reason ≠ "tool_use") :
    tool_loop client s T tm (fuel + 1) msgs cur rc calls batches =
      .brk (some r) (calls + 1) batches rc msgs := by
  simp [tool_loop, h, h2]

/-- One loop iteration when tool use is requested but no tool manager was
supplied. -/
theorem tool_loop_step_no_manager (client : Client) (s : String) (T : Bool)
    (fuel : Nat) (msgs : List Message) (cur : Option Completion)
    (rc calls batches : Nat) (r : Completion)
    (h : client ⟨s, msgs, T⟩ = .ok r) (h2 : r.stop_reason = "tool_use") :
    tool_loop client s T none (fuel + 1) msgs cur rc calls batches =
      .ret (extract_text (some r)) (calls + 1) batches rc msgs := by
  simp [tool_loop, h, h2]

/-- One loop iteration when the tool-execution batch fails. -/
theorem tool_loop_step_fail (client : Client) (s : String) (T : Bool)
    (exec : ToolExecutor) (fuel : Nat) (msgs : List Message)
    (cur : Option Completion) (rc calls batches : Nat) (r : Completion)
    (err : String)
    (h : client ⟨s, msgs, T⟩ = .ok r) (h2 : r.stop_reason = "tool_use")
    (h3 : execute_all_tools exec r.content = .error err) :
    tool_loop client s T (some exec) (fuel + 1) msgs cur rc calls batches =
      .ret (handle_tool_error r err) (calls + 1) (batches + 1) rc msgs := by
  simp [tool_loop, h, h2, h3]

/-- One completed tool round: the loop recurses with the two appended
transcript turns. -/
theorem tool_loop_step_round (client : Client) (s : String) (T : Bool)
    (exec : ToolExecutor) (fuel : Nat) (msgs : List Message)
    (cur : Option Completion) (rc calls batches : Nat) (r : Completion)
    (ts : List ToolResultBlock)
    (h : client ⟨s, msgs, T⟩ = .ok r) (h2 : r.stop_reason = "tool_use")
    (h3 : execute_all_tools exec r.content = .ok ts) :
    tool_loop client s T (some exec) (fuel + 1) msgs cur rc calls batches =
      tool_loop client s T (some exec) fuel (after_round msgs r ts)
        (some r) (rc + 1) (calls + 1) (batches + 1) := by
  simp [tool_loop, h, h2, h3, after_round]

/-- The loop makes at most `fuel` further model-completion calls. -/
theorem tool_loop_calls_le (client : Client) (s : String) (T : Bool)
    (tm : Option ToolExecutor) :
    ∀ (fuel : Nat) (msgs : List Message) (cur : Option Completion)
      (rc calls batches : Nat),
      (tool_loop client s T tm fuel msgs cur rc calls batches).callsOf ≤
        calls + fuel := by
  intro fuel
  induction fuel with
  | zero =>
    intro msgs cur rc calls batches
    simp [tool_loop, LoopOut.callsOf]
  | succ n ih =>
    intro msgs cur rc calls batches
    simp only [tool_loop]
    split
    · simp only [LoopOut.callsOf]; omega
    · split
      · simp only [LoopOut.callsOf]; omega
      · split
        · simp only [LoopOut.callsOf]; omega
        · split
          · simp only [LoopOut.callsOf]; omega
          · exact le_trans (ih _ _ _ _ _) (by omega)

/-- The run makes at most `MAX_TOOL_ROUNDS + 1` model-completion calls. -/
theorem generate_response_calls_le (client : Client) (q : String)
    (hist : Option String) (tools : Option (List String))
    (tm : Option ToolExecutor) :
    (generate_response client q hist tools tm).calls ≤ MAX_TOOL_ROUNDS + 1 := by
  have h := tool_loop_calls_le client (system_content_of hist) (truthyList tools)
    tm MAX_TOOL_ROUNDS [⟨"user", .text q⟩] none 0 0 0
  unfold generate_response
  dsimp only
  split
  next result calls batches rounds msgs heq =>
    rw [heq] at h
    simp only [LoopOut.callsOf, MAX_TOOL_ROUNDS] at h
    show calls ≤ MAX_TOOL_ROUNDS + 1
    simp only [MAX_TOOL_ROUNDS]
    omega
  next current calls batches rounds msgs heq =>
    rw [heq] at h
    simp only [LoopOut.callsOf, MAX_TOOL_ROUNDS] at h
    split
    next response =>
      split
      · split
        · show calls + 1 ≤ MAX_TOOL_ROUNDS + 1
          simp only [MAX_TOOL_ROUNDS]
          omega
        · show calls + 1 ≤ MAX_TOOL_ROUNDS + 1
          simp only [MAX_TOOL_ROUNDS]
          omega
      · show calls ≤ MAX_TOOL_ROUNDS + 1
        simp only [MAX_TOOL_ROUNDS]
        omega
    next =>
      show calls ≤ MAX_TOOL_ROUNDS + 1
      simp only [MAX_TOOL_ROUNDS]
      omega

/-! ## Claim theorems: text extraction (C7) -/

/-- Claim C7: text extraction returns the text of the first plain-text
content block; an absent completion or one with no text block yields the
corresponding fixed fallback string.  (Every exit path of
`generate_response` returns `RunTrace.result : String`, so totality over the
error taxonomy holds by construction of the embedding.) -/
theorem extract_text_first_text_or_fallback :
    extract_text none = "I was unable to generate a response." ∧
    (∀ r : Completion, firstTextBlock r.content = none →
      extract_text (some r) = "I was unable to generate a text response.") ∧
    (∀ (r : Completion) (t : String), firstTextBlock r.content = some t →
      extract_text (some r) = t) ∧
    (∀ (pre : List ContentBlock) (t : String) (rest : List ContentBlock),
      (∀ s : String, ContentBlock.text s ∉ pre) →
      firstTextBlock (pre ++ .text t :: rest) = some t) := by
  refine ⟨rfl, ?_, ?_, ?_⟩
  · intro r h; simp [extract_text, h]
  · intro r t h; simp [extract_text, h]
  · intro pre
    induction pre with
    | nil => intro t rest _; simp [firstTextBlock]
    | cons b bs ih =>
      intro t rest hno
      cases b with
      | text s => exact absurd (List.mem_cons_self _ _) (hno s)
      | tool_use id n i =>
        simp only [List.cons_append, firstTextBlock]
        exact ih t rest (fun s hs => hno s (by simp [hs]))

/-- Witness for C7 at concrete inputs. -/
theorem extract_text_first_text_or_fallback_witness :
    extract_text (some Demo.final) = "Here is the answer." ∧
    firstTextBlock ([ContentBlock.tool_use "a" "b" []] ++ .text "x" :: []) =
      some "x" :=
  ⟨extract_text_first_text_or_fallback.2.2.1 Demo.final "Here is the answer." rfl,
   extract_text_first_text_or_fallback.2.2.2 [.tool_use "a" "b" []] "x" []
     (by intro s; simp)⟩

/-! ## Claim theorems: no tools supplied (C5) -/

/-- Claim C5: with no tool schemas supplied (`tools = None`), and a model
collaborator that honours the interface contract of never stopping for tool
use when no tools were offered, exactly one model-completion call occurs and
its extracted text is returned verbatim (no tool batch runs, the transcript
stays at the seed turn). -/
theorem no_tools_single_completion (client : Client) (q : String)
    (hist : Option String) (tm : Option ToolExecutor) (r1 : Completion)
    (hcontract : ∀ p : ApiParams, p.toolsOffered = false →
      ∀ r, client p = .ok r → r.stop_reason ≠ "tool_use")
    (h1 : client ⟨system_content_of hist, seed_messages q, false⟩ = .ok r1) :
    generate_response client q hist none tm =
      ⟨extract_text (some r1), 1, 0, 0, seed_messages q⟩ := by
  have hstop := hcontract ⟨system_content_of hist, seed_messages q, false⟩ rfl r1 h1
  simp only [seed_messages] at h1 hstop ⊢
  unfold generate_response
  simp only [truthyList]
  rw [show MAX_TOOL_ROUNDS = 1 + 1 from rfl]
  rw [tool_loop_step_done client _ false tm 1 _ none 0 0 0 r1 h1 hstop]
  simp [bne_iff_ne, hstop]

/-- Claim C3: a raised model-collaborator exception is terminal — the run
returns at once a string embedding the literal error text, with no tool
execution for that completion and no retry; the exception never propagates
(the embedding is a total function into `RunTrace`).  First conjunct: the
first call raises (one call total, zero tool batches).  Second conjunct: the
forced final call after two tool rounds raises (three calls total, and no
tool batch beyond the two already completed). -/
theorem model_error_is_terminal :
    (∀ (client : Client) (q : String) (hist : Option String)
      (tools : Option (List String)) (tm : Option ToolExecutor) (e : String),
      client ⟨system_content_of hist, seed_messages q, truthyList tools⟩ =
        .error e →
      generate_response client q hist tools tm =
        ⟨"I encountered an error while processing your request: " ++ e, 1, 0, 0,
          seed_messages q⟩) ∧
    (∀ (client : Client) (q : String) (hist : Option String)
      (tools : Option (List String)) (exec : ToolExecutor)
      (r1 r2 : Completion) (ts1 ts2 : List ToolResultBlock) (e : String),
      client ⟨system_content_of hist, seed_messages q, truthyList tools⟩ = .ok r1 →
      r1.stop_reason = "tool_use" →
      execute_all_tools exec r1.content = .ok ts1 →
      client ⟨system_content_of hist, after_round (seed_messages q) r1 ts1,
        truthyList tools⟩ = .ok r2 →
      r2.stop_reason = "tool_use" →
      execute_all_tools exec r2.content = .ok ts2 →
      client ⟨system_content_of hist,
        after_round (after_round (seed_messages q) r1 ts1) r2 ts2,
        truthyList tools⟩ = .error e →
      generate_response client q hist tools (some exec) =
        ⟨"I encountered an error while generating final response: " ++ e,
          3, 2, 2, after_round (after_round (seed_messages q) r1 ts1) r2 ts2⟩) := by
  constructor
  · intro client q hist tools tm e h1
    simp only [seed_messages] at h1 ⊢
    unfold generate_response
    dsimp only
    rw [show MAX_TOOL_ROUNDS = 1 + 1 from rfl]
    rw [tool_loop_step_err client _ (truthyList tools) tm 1 _ none 0 0 0 e h1]
  · intro client q hist tools exec r1 r2 ts1 ts2 e h1 h1s hb1 h2 h2s hb2 h3
    simp only [seed_messages, after_round] at h1 h2 h3 ⊢
    unfold generate_response
    dsimp only
    rw [show MAX_TOOL_ROUNDS = 1 + 1 from rfl]
    rw [tool_loop_step_round client _ (truthyList tools) exec 1 _ none 0 0 0 r1
      ts1 h1 h1s hb1]
    rw [show (1 : Nat) = 0 + 1 from rfl]
    rw [tool_loop_step_round client _ (truthyList tools) exec 0 _ (some r1) 1 1 1
      r2 ts2 (by simpa [after_round] using h2) h2s hb2]
    rw [tool_loop]
    simp only [List.cons_append, List.nil_append, after_round] at h3
    simp [h2s, h3, after_round]

/-- Witness for C3: a first-call failure and a final-call failure at
concrete inputs. -/
theorem model_error_is_terminal_witness :
    generate_response Demo.clientErr "q" none none none =
      ⟨"I encountered an error while processing your request: boom", 1, 0, 0,
        seed_messages "q"⟩ ∧
    generate_response Demo.client2err "q" none none (some Demo.exec_ok) =
      ⟨"I encountered an error while generating final response: rate limited",
        3, 2, 2,
        after_round (after_round (seed_messages "q") Demo.t1
          [⟨"tu1", "course content result"⟩]) Demo.t2
          [⟨"tu2", "course content result"⟩]⟩ := by
  constructor
  · exact model_error_is_terminal.1 Demo.clientErr "q" none none none "boom" rfl
  · exact model_error_is_terminal.2 Demo.client2err "q" none none Demo.exec_ok
      Demo.t1 Demo.t2 [⟨"tu1", "course content result"⟩]
      [⟨"tu2", "course content result"⟩] "rate limited"
      rfl rfl rfl rfl rfl rfl rfl

/-- Claim C1: the round loop stops after `MAX_TOOL_ROUNDS = 2` completed
tool rounds; when both rounds stopped for tool use, exactly one additional
forced completion call is issued and its extracted text (not round 2's) is
returned — three calls in that scenario — and in every run the number of
model-completion calls is at most `MAX_TOOL_ROUNDS + 1`. -/
theorem round_cap_and_forced_final :
    (∀ (client : Client) (q : String) (hist : Option String)
      (tools : Option (List String)) (tm : Option ToolExecutor),
      (generate_response client q hist tools tm).calls ≤ MAX_TOOL_ROUNDS + 1) ∧
    (∀ (client : Client) (q : String) (hist : Option String)
      (tools : Option (List String)) (exec : ToolExecutor)
      (r1 r2 r3 : Completion) (ts1 ts2 : List ToolResultBlock),
      client ⟨system_content_of hist, seed_messages q, truthyList tools⟩ = .ok r1 →
      r1.stop_reason = "tool_use" →
      execute_all_tools exec r1.content = .ok ts1 →
      client ⟨system_content_of hist, after_round (seed_messages q) r1 ts1,
        truthyList tools⟩ = .ok r2 →
      r2.stop_reason = "tool_use" →
      execute_all_tools exec r2.content = .ok ts2 →
      client ⟨system_content_of hist,
        after_round (after_round (seed_messages q) r1 ts1) r2 ts2,
        truthyList tools⟩ = .ok r3 →
      generate_response client q hist tools (some exec) =
        ⟨extract_text (some r3), MAX_TOOL_ROUNDS + 1, 2, MAX_TOOL_ROUNDS,
          after_round (after_round (seed_messages q) r1 ts1) r2 ts2⟩) := by
  constructor
  · exact generate_response_calls_le
  · intro client q hist tools exec r1 r2 r3 ts1 ts2 h1 h1s hb1 h2 h2s hb2 h3
    simp only [seed_messages, after_round] at h1 h2 h3 ⊢
    unfold generate_response
    dsimp only
    rw [show MAX_TOOL_ROUNDS = 1 + 1 from rfl]
    rw [tool_loop_step_round client _ (truthyList tools) exec 1 _ none 0 0 0 r1
      ts1 h1 h1s hb1]
    rw [show (1 : Nat) = 0 + 1 from rfl]
    rw [tool_loop_step_round client _ (truthyList tools) exec 0 _ (some r1) 1 1 1
      r2 ts2 (by simpa [after_round] using h2) h2s hb2]
    rw [tool_loop]
    simp only [List.cons_append, List.nil_append, after_round] at h3
    simp [h2s, h3, MAX_TOOL_ROUNDS, after_round]

/-- Witness for C1: with a client that stops for tool use twice, the forced
third call's text is returned and the bound holds. -/
theorem round_cap_and_forced_final_witness :
    (generate_response Demo.client3 "q" none (some ["s"]) (some Demo.exec_ok)).calls
        ≤ MAX_TOOL_ROUNDS + 1 ∧
    generate_response Demo.client3 "q" none (some ["s"]) (some Demo.exec_ok) =
      ⟨"Here is the answer.", MAX_TOOL_ROUNDS + 1, 2, MAX_TOOL_ROUNDS,
        after_round (after_round (seed_messages "q") Demo.t1
          [⟨"tu1", "course content result"⟩]) Demo.t2
          [⟨"tu2", "course content result"⟩]⟩ := by
  constructor
  · exact round_cap_and_forced_final.1 Demo.client3 "q" none (some ["s"])
      (some Demo.exec_ok)
  · have h := round_cap_and_forced_final.2 Demo.client3 "q" none (some ["s"])
      Demo.exec_ok Demo.t1 Demo.t2 Demo.final [⟨"tu1", "course content result"⟩]
      [⟨"tu2", "course content result"⟩]
      rfl rfl rfl rfl rfl rfl rfl
    simpa using h

/-- Claim C2: when a tool-execution step fails, no further tool rounds run
and the returned string is the degraded answer.  First conjunct (failure in
round 1): full trace equality, the two shapes of the degraded answer (the
failing completion's first text block verbatim as a prefix with the
bracketed note, or the generic apology naming the failure), and the error
text appearing in the result in both cases.  Second conjunct: failure in
round 2 ends the run with two completion calls and round counter 1, the
round-2 turns never appended. -/
theorem tool_failure_degraded_answer :
    (∀ (client : Client) (q : String) (hist : Option String)
      (tools : Option (List String)) (exec : ToolExecutor) (r1 : Completion)
      (err : String),
      client ⟨system_content_of hist, seed_messages q, truthyList tools⟩ = .ok r1 →
      r1.stop_reason = "tool_use" →
      execute_all_tools exec r1.content = .error err →
      generate_response client q hist tools (some exec) =
        ⟨handle_tool_error r1 err, 1, 1, 0, seed_messages q⟩ ∧
      (∀ t, firstTextBlock r1.content = some t →
        (generate_response client q hist tools (some exec)).result =
          t ++ "\n\n[Note: Unable to complete search due to error: " ++ err ++ "]") ∧
      (firstTextBlock r1.content = none →
        (generate_response client q hist tools (some exec)).result =
          "I encountered an error while searching: " ++ err) ∧
      (∃ pre post, (generate_response client q hist tools (some exec)).result =
        pre ++ err ++ post)) ∧
    (∀ (client : Client) (q : String) (hist : Option String)
      (tools : Option (List String)) (exec : ToolExecutor)
      (r1 r2 : Completion) (ts1 : List ToolResultBlock) (err : String),
      client ⟨system_content_of hist, seed_messages q, truthyList tools⟩ = .ok r1 →
      r1.stop_reason = "tool_use" →
      execute_all_tools exec r1.content = .ok ts1 →
      client ⟨system_content_of hist, after_round (seed_messages q) r1 ts1,
        truthyList tools⟩ = .ok r2 →
      r2.stop_reason = "tool_use" →
      execute_all_tools exec r2.content = .error err →
      generate_response client q hist tools (some exec) =
        ⟨handle_tool_error r2 err, 2, 2, 1,
          after_round (seed_messages q) r1 ts1⟩) := by
  constructor
  · intro client q hist tools exec r1 err h1 h1s hb
    have htrace : generate_response client q hist tools (some exec) =
        ⟨handle_tool_error r1 err, 1, 1, 0, seed_messages q⟩ := by
      simp only [seed_messages] at h1 ⊢
      unfold generate_response
      dsimp only
      rw [show MAX_TOOL_ROUNDS = 1 + 1 from rfl]
      rw [tool_loop_step_fail client _ (truthyList tools) exec 1 _ none 0 0 0 r1
        err h1 h1s hb]
    refine ⟨htrace, ?_, ?_, ?_⟩
    · intro t ht
      rw [htrace]
      simp [handle_tool_error, ht]
    · intro ht
      rw [htrace]
      simp [handle_tool_error, ht]
    · rw [htrace]
      cases hft : firstTextBlock r1.content with
      | some t =>
        exact ⟨t ++ "\n\n[Note: Unable to complete search due to error: ", "]",
          by simp [handle_tool_error, hft]⟩
      | none =>
        exact ⟨"I encountered an error while searching: ", "",
          by simp [handle_tool_error, hft]⟩
  · intro client q hist tools exec r1 r2 ts1 err h1 h1s hb1 h2 h2s hb2
    simp only [seed_messages, after_round] at h1 h2 ⊢
    unfold generate_response
    dsimp only
    rw [show MAX_TOOL_ROUNDS = 1 + 1 from rfl]
    rw [tool_loop_step_round client _ (truthyList tools) exec 1 _ none 0 0 0 r1
      ts1 h1 h1s hb1]
    rw [show (1 : Nat) = 0 + 1 from rfl]
    rw [tool_loop_step_fail client _ (truthyList tools) exec 0 _ (some r1) 1 1 1
      r2 err (by simpa [after_round] using h2) h2s hb2]
    simp [after_round]

/-- Witness for C2: an error-shaped tool result in round 1 produces the
degraded answer with the pre-tool text as a verbatim prefix. -/
theorem tool_failure_degraded_answer_witness :
    generate_response Demo.client3 "q" none none (some Demo.exec_bad) =
      ⟨handle_tool_error Demo.t1 "Tool execution failed: Error: search failed",
        1, 1, 0, seed_messages "q"⟩ ∧
    (generate_response Demo.client3 "q" none none (some Demo.exec_bad)).result =
      "Searching first." ++ "\n\n[Note: Unable to complete search due to error: "
        ++ "Tool execution failed: Error: search failed" ++ "]" := by
  have h := tool_failure_degraded_answer.1 Demo.client3 "q" none none
    Demo.exec_bad Demo.t1 "Tool execution failed: Error: search failed"
    rfl rfl rfl
  exact ⟨h.1, h.2.1 "Searching first." rfl⟩

/-- On a prefix whose tool invocations all succeed with non-error-shaped
results, `_execute_all_tools` proceeds past the prefix and prepends its
correlated results, in encounter order, to whatever the remainder yields. -/
theorem execute_all_tools_append (exec : ToolExecutor) :
    ∀ (pre : List ContentBlock),
      (∀ id n i, ContentBlock.tool_use id n i ∈ pre →
        ∃ s, exec n i = .ok s ∧ errorShaped s = false) →
      ∀ tail, execute_all_tools exec (pre ++ tail) =
        match execute_all_tools exec tail with
        | .error e => .error e
        | .ok results =>
          .ok (((toolUses pre).map (fun t =>
            (⟨t.1, result_of (exec t.2.1 t.2.2)⟩ : ToolResultBlock))) ++ results) := by
  intro pre
  induction pre with
  | nil =>
    intro _ tail
    cases h : execute_all_tools exec tail <;> simp [toolUses, h]
  | cons b bs ih =>
    intro hok tail
    cases b with
    | text t =>
      have hrest := ih (fun id n i hm => hok id n i (List.mem_cons_of_mem _ hm)) tail
      simpa [execute_all_tools, toolUses] using hrest
    | tool_use id n i =>
      obtain ⟨s, hs, hsh⟩ := hok id n i (List.mem_cons_self _ _)
      have hrest := ih (fun id' n' i' hm => hok id' n' i' (List.mem_cons_of_mem _ hm)) tail
      cases h : execute_all_tools exec tail with
      | error e =>
        rw [h] at hrest
        simp [execute_all_tools, hs, hsh, hrest, toolUses, result_of, h]
      | ok results =>
        rw [h] at hrest
        simp [execute_all_tools, hs, hsh, hrest, toolUses, result_of, h]

/-- Claim C4: tool-invocation blocks are dispatched in encounter order; the
first raised exception or error-shaped result aborts the step with the
corresponding failure message, independently of the blocks that follow; and
on a failing round nothing is appended to the transcript (the assistant turn
and the tool-result turn are appended only for fully successful batches). -/
theorem tool_dispatch_order_and_atomicity :
    (∀ (exec : ToolExecutor) (content : List ContentBlock),
      (∀ id n i, ContentBlock.tool_use id n i ∈ content →
        ∃ s, exec n i = .ok s ∧ errorShaped s = false) →
      execute_all_tools exec content =
        .ok ((toolUses content).map (fun t =>
          (⟨t.1, result_of (exec t.2.1 t.2.2)⟩ : ToolResultBlock)))) ∧
    (∀ (exec : ToolExecutor) (pre : List ContentBlock) (id n : String)
      (i : Input) (e : String) (rest : List ContentBlock),
      (∀ id' n' i', ContentBlock.tool_use id' n' i' ∈ pre →
        ∃ s, exec n' i' = .ok s ∧ errorShaped s = false) →
      exec n i = .error e →
      execute_all_tools exec (pre ++ .tool_use id n i :: rest) =
        .error ("Tool execution exception: " ++ e)) ∧
    (∀ (exec : ToolExecutor) (pre : List ContentBlock) (id n : String)
      (i : Input) (s : String) (rest : List ContentBlock),
      (∀ id' n' i', ContentBlock.tool_use id' n' i' ∈ pre →
        ∃ s', exec n' i' = .ok s' ∧ errorShaped s' = false) →
      exec n i = .ok s → errorShaped s = true →
      execute_all_tools exec (pre ++ .tool_use id n i :: rest) =
        .error ("Tool execution failed: " ++ s)) ∧
    (∀ (client : Client) (q : String) (hist : Option String)
      (tools : Option (List String)) (exec : ToolExecutor) (r1 : Completion)
      (err : String),
      client ⟨system_content_of hist, seed_messages q, truthyList tools⟩ = .ok r1 →
      r1.stop_reason = "tool_use" →
      execute_all_tools exec r1.content = .error err →
      (generate_response client q hist tools (some exec)).messages =
        seed_messages q) := by
  refine ⟨?_, ?_, ?_, ?_⟩
  · intro exec content hok
    have h := execute_all_tools_append exec content hok []
    simpa [execute_all_tools] using h
  · intro exec pre id n i e rest hok hfail
    have h := execute_all_tools_append exec pre hok (.tool_use id n i :: rest)
    rw [h]
    simp [execute_all_tools, hfail]
  · intro exec pre id n i s rest hok hs hsh
    have h := execute_all_tools_append exec pre hok (.tool_use id n i :: rest)
    rw [h]
    simp [execute_all_tools, hs, hsh]
  · intro client q hist tools exec r1 err h1 h1s hb
    simp only [seed_messages] at h1 ⊢
    unfold generate_response
    dsimp only
    rw [show MAX_TOOL_ROUNDS = 1 + 1 from rfl]
    rw [tool_loop_step_fail client _ (truthyList tools) exec 1 _ none 0 0 0 r1
      err h1 h1s hb]

/-- Witness for C4 at concrete inputs: encounter order on a two-invocation
batch, the abort on an error-shaped head, and the untouched transcript. -/
theorem tool_dispatch_order_and_atomicity_witness :
    execute_all_tools Demo.exec_ok
        [.text "x", .tool_use "a" "n1" [], .tool_use "b" "n2" []] =
      .ok [⟨"a", "course content result"⟩, ⟨"b", "course content result"⟩] ∧
    execute_all_tools Demo.exec_bad
        ([] ++ .tool_use "a" "n1" [] :: [.tool_use "b" "n2" []]) =
      .error ("Tool execution failed: " ++ "Error: search failed") ∧
    (generate_response Demo.client3 "q2" none none (some Demo.exec_bad)).messages =
      seed_messages "q2" := by
  refine ⟨?_, ?_, ?_⟩
  · have h := tool_dispatch_order_and_atomicity.1 Demo.exec_ok
      [.text "x", .tool_use "a" "n1" [], .tool_use "b" "n2" []]
      (by intro id n i hm; exact ⟨"course content result", rfl, rfl⟩)
    simpa [toolUses, result_of, Demo.exec_ok] using h
  · exact tool_dispatch_order_and_atomicity.2.2.1 Demo.exec_bad [] "a" "n1" []
      "Error: search failed" [.tool_use "b" "n2" []]
      (by intro id n i hm; cases hm) rfl rfl
  · exact tool_dispatch_order_and_atomicity.2.2.2 Demo.client3 "q2" none none
      Demo.exec_bad Demo.t1 "Tool execution failed: Error: search failed"
      rfl rfl rfl

/-- The loop only ever appends whole assistant/tool-result turn pairs to the
transcript it was entered with. -/
theorem tool_loop_messages (client : Client) (s : String) (T : Bool)
    (tm : Option ToolExecutor) :
    ∀ (fuel : Nat) (msgs : List Message) (cur : Option Completion)
      (rc calls batches : Nat),
      ∃ pairs : List (List ContentBlock × List ToolResultBlock),
        (tool_loop client s T tm fuel msgs cur rc calls batches).messagesOf =
          msgs ++ (pairs.map round_turns).flatten := by
  intro fuel
  induction fuel with
  | zero =>
    intro msgs cur rc calls batches
    exact ⟨[], by simp [tool_loop, LoopOut.messagesOf]⟩
  | succ n ih =>
    intro msgs cur rc calls batches
    rcases hc : client ⟨s, msgs, T⟩ with e | response
    · exact ⟨[], by simp [tool_loop, hc, LoopOut.messagesOf]⟩
    · by_cases hstop : response.stop_reason = "tool_use"
      · cases tm with
        | none =>
          exact ⟨[], by simp [tool_loop, hc, hstop, LoopOut.messagesOf]⟩
        | some exec =>
          rcases hb : execute_all_tools exec response.content with err | ts
          · exact ⟨[], by simp [tool_loop, hc, hstop, hb, LoopOut.messagesOf]⟩
          · obtain ⟨ps, hps⟩ := ih (msgs ++ round_turns (response.content, ts))
              (some response) (rc + 1) (calls + 1) (batches + 1)
            refine ⟨(response.content, ts) :: ps, ?_⟩
            rw [tool_loop_step_round client s T exec n msgs cur rc calls batches
              response ts hc hstop hb]
            simp only [after_round, round_turns] at hps ⊢
            rw [hps]
            simp [round_turns, List.append_assoc]
      · exact ⟨[], by simp [tool_loop, hc, hstop, LoopOut.messagesOf]⟩

/-- The final transcript of a run is the loop's transcript. -/
theorem generate_response_messages (client : Client) (q : String)
    (hist : Option String) (tools : Option (List String))
    (tm : Option ToolExecutor) :
    (generate_response client q hist tools tm).messages =
      (tool_loop client (system_content_of hist) (truthyList tools) tm
        MAX_TOOL_ROUNDS [⟨"user", .text q⟩] none 0 0 0).messagesOf := by
  unfold generate_response
  dsimp only
  split
  next result calls batches rounds msgs heq =>
    rw [heq]
    simp [LoopOut.messagesOf]
  next current calls batches rounds msgs heq =>
    rw [heq]
    simp only [LoopOut.messagesOf]
    split
    next response =>
      split
      · split
        · simp
        · simp
      · simp
    next => simp

/-- Claim C6: within every run the transcript only grows by whole
assistant/tool-result turn pairs appended after the seed user turn — so the
seed transcript is a prefix of the final one and roles strictly alternate
starting with `user`. -/
theorem transcript_alternates_append_only (client : Client) (q : String)
    (hist : Option String) (tools : Option (List String))
    (tm : Option ToolExecutor) :
    (∃ pairs : List (List ContentBlock × List ToolResultBlock),
      (generate_response client q hist tools tm).messages =
        seed_messages q ++ (pairs.map round_turns).flatten) ∧
    alternatesFrom "user" (generate_response client q hist tools tm).messages
      = true ∧
    seed_messages q <+: (generate_response client q hist tools tm).messages := by
  obtain ⟨ps, hps⟩ := tool_loop_messages client (system_content_of hist)
    (truthyList tools) tm MAX_TOOL_ROUNDS [⟨"user", .text q⟩] none 0 0 0
  have hmsg : (generate_response client q hist tools tm).messages =
      seed_messages q ++ (ps.map round_turns).flatten := by
    rw [generate_response_messages, hps, seed_messages]
  refine ⟨⟨ps, hmsg⟩, ?_, ?_⟩
  · rw [hmsg]
    have halt : ∀ pairs : List (List ContentBlock × List ToolResultBlock),
        alternatesFrom "assistant" ((pairs.map round_turns).flatten) = true := by
      intro pairs
      induction pairs with
      | nil => rfl
      | cons p pr ih => simp [round_turns, alternatesFrom, other_role, ih]
    simp [seed_messages, alternatesFrom, other_role, halt ps]
  · exact ⟨(ps.map round_turns).flatten, hmsg.symm⟩

/-- Claim C10: `get_last_sources` returns the `last_sources` of the first
registered tool (in registration order) whose list is non-empty, never
merging across tools; `CourseSearchTool.execute` overwrites `last_sources`
only on a successful non-empty search (error and empty results leave it
unchanged, and the overwritten value does not depend on the previous one);
`reset_sources` empties every source-tracking tool's list. -/
theorem sources_tracking_spec :
    (∀ (pre post : ToolManager.Tools) (name : String) (store : VectorStore)
      (ls : List Source),
      ls ≠ [] →
      (∀ e ∈ pre, ∀ st ls', e.2 = RegisteredTool.search st ls' → ls' = []) →
      ToolManager.get_last_sources (pre ++ (name, .search store ls) :: post) = ls) ∧
    (∀ tools : ToolManager.Tools,
      (∀ e ∈ tools, ∀ st ls, e.2 = RegisteredTool.search st ls → ls = []) →
      ToolManager.get_last_sources tools = []) ∧
    (∀ (store : VectorStore) (ls : List Source) (q : String)
      (cn : Option String) (ln : Option Int),
      truthyStr (store.search q cn ln).error = true →
      CourseSearchTool.execute store ls q cn ln =
        ((store.search q cn ln).error.getD "", ls)) ∧
    (∀ (store : VectorStore) (ls : List Source) (q : String)
      (cn : Option String) (ln : Option Int),
      truthyStr (store.search q cn ln).error = false →
      (store.search q cn ln).is_empty = true →
      (CourseSearchTool.execute store ls q cn ln).2 = ls) ∧
    (∀ (store : VectorStore) (ls : List Source) (q : String)
      (cn : Option String) (ln : Option Int),
      truthyStr (store.search q cn ln).error = false →
      (store.search q cn ln).is_empty = false →
      (CourseSearchTool.execute store ls q cn ln).2 =
        (CourseSearchTool.format_results store (store.search q cn ln)).2) ∧
    (∀ (tools : ToolManager.Tools) (k : Nat),
      ToolManager.sources_at (ToolManager.reset_sources tools) k = []) := by
  refine ⟨?_, ?_, ?_, ?_, ?_, ?_⟩
  · intro pre
    induction pre with
    | nil =>
      intro post name store ls hne _
      cases ls with
      | nil => exact absurd rfl hne
      | cons a as => simp [ToolManager.get_last_sources]
    | cons e rest ih =>
      intro post name store ls hne hpre
      obtain ⟨k, tool⟩ := e
      cases tool with
      | search st ls' =>
        have hempty : ls' = [] := hpre (k, .search st ls') (List.mem_cons_self _ _)
          st ls' rfl
        subst hempty
        simp only [List.cons_append, ToolManager.get_last_sources, List.isEmpty_nil,
          if_true]
        exact ih post name store ls hne
          (fun e' he' => hpre e' (List.mem_cons_of_mem _ he'))
      | outline st =>
        simp only [List.cons_append, ToolManager.get_last_sources]
        exact ih post name store ls hne
          (fun e' he' => hpre e' (List.mem_cons_of_mem _ he'))
  · intro tools
    induction tools with
    | nil => intro _; rfl
    | cons e rest ih =>
      intro hall
      obtain ⟨k, tool⟩ := e
      cases tool with
      | search st ls' =>
        have hempty : ls' = [] := hall (k, .search st ls') (List.mem_cons_self _ _)
          st ls' rfl
        subst hempty
        simp only [ToolManager.get_last_sources, List.isEmpty_nil, if_true]
        exact ih (fun e' he' => hall e' (List.mem_cons_of_mem _ he'))
      | outline st =>
        simp only [ToolManager.get_last_sources]
        exact ih (fun e' he' => hall e' (List.mem_cons_of_mem _ he'))
  · intro store ls q cn ln h1
    simp [CourseSearchTool.execute, h1]
  · intro store ls q cn ln h1 h2
    simp only [CourseSearchTool.execute, h1, h2]
    simp only [Bool.false_eq_true, if_false, if_true]
    split <;> rfl
  · intro store ls q cn ln h1 h2
    simp [CourseSearchTool.execute, h1, h2]
  · intro tools
    induction tools with
    | nil => intro k; cases k <;> simp [ToolManager.sources_at, ToolManager.reset_sources]
    | cons e rest ih =>
      intro k
      cases k with
      | zero =>
        obtain ⟨nm, tool⟩ := e
        cases tool <;>
          simp [ToolManager.sources_at, ToolManager.reset_sources,
            ToolManager.reset_entry]
      | succ j =>
        have := ih j
        simpa [ToolManager.sources_at, ToolManager.reset_sources] using this

/-- Witness for C10 at the concrete store and registry fixtures. -/
theorem sources_tracking_spec_witness :
    ToolManager.get_last_sources
        ([("get_course_outline", RegisteredTool.outline Demo.store0)] ++
          ("search_course_content", .search Demo.store0
            [⟨"Intro - Lesson 2", some "https://example.com/lesson2"⟩]) :: []) =
      [⟨"Intro - Lesson 2", some "https://example.com/lesson2"⟩] ∧
    CourseSearchTool.execute Demo.store0
        [⟨"old", none⟩] "err" none none =
      ((Demo.store0.search "err" none none).error.getD "", [⟨"old", none⟩]) ∧
    ToolManager.sources_at (ToolManager.reset_sources Demo.manager0) 0 = [] := by
  refine ⟨?_, ?_, ?_⟩
  · exact sources_tracking_spec.1 [("get_course_outline", .outline Demo.store0)]
      [] "search_course_content" Demo.store0
      [⟨"Intro - Lesson 2", some "https://example.com/lesson2"⟩]
      (by simp)
      (by
        intro e he st ls' hh
        simp only [List.mem_singleton] at he
        subst he
        cases hh)
  · exact sources_tracking_spec.2.2.1 Demo.store0 [⟨"old", none⟩] "err" none none
      (by simp [Demo.store0, Demo.searchErr, truthyStr])
  · exact sources_tracking_spec.2.2.2.2.2 Demo.manager0 0

/-- Prefix tests extend along an appended tail. -/
theorem listStarts_extend : ∀ (p s : List Char), listStarts p s = true →
    ∀ t, listStarts p (s ++ t) = true := by
  intro p
  induction p with
  | nil => intro s _ t; rfl
  | cons c cs ih =>
    intro s h t
    cases s with
    | nil => simp [listStarts] at h
    | cons d ds =>
      simp only [listStarts, Bool.and_eq_true] at h
      simp only [List.cons_append, listStarts, Bool.and_eq_true]
      exact ⟨h.1, ih ds h.2 t⟩

/-- The not-found string of `ToolManager.execute_tool` is error-shaped: it
starts with `"Tool"`. -/
theorem errorShaped_not_found (n : String) :
    errorShaped ("Tool '" ++ n ++ "' not found") = true := by
  have h0 : listStarts "Tool".data "Tool '".data = true := by decide
  have h1 := listStarts_extend _ _ h0 (n.data ++ "' not found".data)
  have h2 : ("Tool '" ++ n ++ "' not found").data =
      "Tool '".data ++ (n.data ++ "' not found".data) := by
    simp [String.data_append, List.append_assoc]
  unfold errorShaped strStarts
  rw [h2, h1]
  simp

/-- `ToolManager.execute_tool` on an unregistered name returns the
not-found string normally (no exception) and leaves the registry
unchanged. -/
theorem execute_tool_not_found (n : String) (i : Input) :
    ∀ σ : ToolManager.Tools, ToolManager.lookup_tool σ n = none →
      ToolManager.execute_tool σ n i =
        (.ok ("Tool '" ++ n ++ "' not found"), σ) := by
  intro σ
  induction σ with
  | nil => intro _; rfl
  | cons e rest ih =>
    intro hl
    obtain ⟨k, tool⟩ := e
    cases hk : (k == n) with
    | true => simp [ToolManager.lookup_tool, hk] at hl
    | false =>
      have hrest : ToolManager.lookup_tool rest n = none := by
        simpa [ToolManager.lookup_tool, hk] using hl
      simp [ToolManager.execute_tool, hk, ih hrest]

/-- If the first tool invocation of a batch executes to an error-shaped
`ok` result, the whole stateful batch aborts with the failure message and
the registry state left by that call. -/
theorem execute_all_tools_st_head_shaped (r : String) (σ' : ToolManager.Tools)
    (hsh : errorShaped r = true) :
    ∀ (content : List ContentBlock) (id n : String) (i : Input)
      (us : List (String × String × Input)) (σ : ToolManager.Tools),
      toolUses content = (id, n, i) :: us →
      ToolManager.execute_tool σ n i = (.ok r, σ') →
      execute_all_tools_st content σ =
        (.error ("Tool execution failed: " ++ r), σ') := by
  intro content
  induction content with
  | nil => intro id n i us σ h; cases h
  | cons b rest ih =>
    intro id n i us σ huses hexec
    cases b with
    | text t =>
      simp only [toolUses] at huses
      simpa [execute_all_tools_st] using ih id n i us σ huses hexec
    | tool_use id' n' i' =>
      simp only [toolUses, List.cons.injEq] at huses
      obtain ⟨h1, _⟩ := huses
      simp only [Prod.mk.injEq] at h1
      obtain ⟨hid, hn, hi⟩ := h1
      subst hid; subst hn; subst hi
      simp [execute_all_tools_st, hexec, hsh]

/-- One stateful loop iteration when the tool batch fails. -/
theorem tool_loop_st_step_fail (client : Client) (s : String) (T : Bool)
    (fuel : Nat) (msgs : List Message) (cur : Option Completion)
    (rc calls batches : Nat) (r : Completion) (err : String)
    (σ σ' : ToolManager.Tools)
    (h : client ⟨s, msgs, T⟩ = .ok r) (h2 : r.stop_reason = "tool_use")
    (h3 : execute_all_tools_st r.content σ = (.error err, σ')) :
    tool_loop_st client s T (fuel + 1) msgs cur rc calls batches σ =
      (.ret (handle_tool_error r err) (calls + 1) (batches + 1) rc msgs, σ') := by
  simp [tool_loop_st, h, h2, h3]

/-- Claim C9: an unregistered tool name produces the `"Tool '<name>' not
found"` string rather than raising; the orchestrator's error classification
treats it as error-shaped (it starts with `"Tool"`), so a completion whose
first tool invocation names an unregistered tool terminates the run with a
degraded answer after one completion call — no exception, registry
unchanged, and the not-found string never appended to the transcript as a
tool result. -/
theorem unregistered_tool_terminates_run (client : Client) (q : String)
    (hist : Option String) (tools : Option (List String))
    (σ : ToolManager.Tools) (r1 : Completion) (id n : String) (i : Input)
    (us : List (String × String × Input))
    (hlook : ToolManager.lookup_tool σ n = none)
    (h1 : client ⟨system_content_of hist, seed_messages q, truthyList tools⟩ =
      .ok r1)
    (h1s : r1.stop_reason = "tool_use")
    (huses : toolUses r1.content = (id, n, i) :: us) :
    ToolManager.execute_tool σ n i =
      (.ok ("Tool '" ++ n ++ "' not found"), σ) ∧
    errorShaped ("Tool '" ++ n ++ "' not found") = true ∧
    generate_response_st client q hist tools σ =
      (⟨handle_tool_error r1
          ("Tool execution failed: " ++ ("Tool '" ++ n ++ "' not found")),
        1, 1, 0, seed_messages q⟩, σ) := by
  have hexec := execute_tool_not_found n i σ hlook
  have hshape := errorShaped_not_found n
  have hbatch := execute_all_tools_st_head_shaped _ σ hshape r1.content id n i
    us σ huses hexec
  refine ⟨hexec, hshape, ?_⟩
  simp only [seed_messages] at h1 ⊢
  unfold generate_response_st
  dsimp only
  rw [show MAX_TOOL_ROUNDS = 1 + 1 from rfl]
  rw [tool_loop_st_step_fail client _ (truthyList tools) 1 _ none 0 0 0 r1 _
    σ σ h1 h1s hbatch]

/-- Witness for C9: an empty registry and a client requesting
`"bogus_tool"`. -/
theorem unregistered_tool_terminates_run_witness :
    ToolManager.execute_tool [] "bogus_tool" [] =
      (.ok ("Tool '" ++ "bogus_tool" ++ "' not found"), []) ∧
    generate_response_st Demo.clientUnknown "q" none none [] =
      (⟨handle_tool_error Demo.unknownReq
          ("Tool execution failed: " ++ ("Tool '" ++ "bogus_tool" ++ "' not found")),
        1, 1, 0, seed_messages "q"⟩, []) := by
  have h := unregistered_tool_terminates_run Demo.clientUnknown "q" none none []
    Demo.unknownReq "x1" "bogus_tool" [] [] rfl rfl rfl rfl
  exact ⟨h.1, h.2.2⟩

/-- The result string of `CourseSearchTool.execute` does not depend on the
tool's previous `last_sources` value. -/
theorem course_search_execute_fst (store : VectorStore) (q : String)
    (cn : Option String) (ln : Option Int) (ls ls' : List Source) :
    (CourseSearchTool.execute store ls q cn ln).1 =
      (CourseSearchTool.execute store ls' q cn ln).1 := by
  simp only [CourseSearchTool.execute]
  split
  · rfl
  · split
    · split <;> rfl
    · rfl

/-- The `last_sources` update of `CourseSearchTool.execute` is either the
identity or a write whose value does not depend on the previous one. -/
theorem course_search_execute_snd (store : VectorStore) (q : String)
    (cn : Option String) (ln : Option Int) :
    (∀ ls, (CourseSearchTool.execute store ls q cn ln).2 = ls) ∨
    (∀ ls ls', (CourseSearchTool.execute store ls q cn ln).2 =
      (CourseSearchTool.execute store ls' q cn ln).2) := by
  cases herr : truthyStr (store.search q cn ln).error with
  | true =>
    left
    intro ls
    simp [CourseSearchTool.execute, herr]
  | false =>
    cases hemp : (store.search q cn ln).is_empty with
    | true =>
      left
      intro ls
      simp only [CourseSearchTool.execute, herr, hemp]
      simp only [Bool.false_eq_true, if_false, if_true]
      split <;> rfl
    | false =>
      right
      intro ls ls'
      simp [CourseSearchTool.execute, herr, hemp]

/-- The result of dispatching `execute` on a search tool does not depend on
its `last_sources` state. -/
theorem run_tool_search_fst (store : VectorStore) (i : Input)
    (ls ls' : List Source) :
    (ToolManager.run_tool (.search store ls) i).1 =
      (ToolManager.run_tool (.search store ls') i).1 := by
  cases hb : ToolManager.course_search_bind i with
  | error e => simp [ToolManager.run_tool, hb]
  | ok args =>
    obtain ⟨q, cn, ln⟩ := args
    simp [ToolManager.run_tool, hb, course_search_execute_fst store q cn ln ls ls']

/-- Dispatch on a search tool keeps the store and only rewrites
`last_sources`. -/
theorem run_tool_search_shape (store : VectorStore) (i : Input)
    (ls : List Source) :
    ∃ ls2, (ToolManager.run_tool (.search store ls) i).2 = .search store ls2 := by
  cases hb : ToolManager.course_search_bind i with
  | error e => exact ⟨ls, by simp [ToolManager.run_tool, hb]⟩
  | ok args =>
    obtain ⟨q, cn, ln⟩ := args
    exact ⟨(CourseSearchTool.execute store ls q cn ln).2,
      by simp [ToolManager.run_tool, hb]⟩

/-- Dispatch on a search tool either keeps `last_sources` or writes a value
independent of it. -/
theorem run_tool_search_upd (store : VectorStore) (i : Input) :
    (∀ ls, (ToolManager.run_tool (.search store ls) i).2 = .search store ls) ∨
    (∀ ls ls', (ToolManager.run_tool (.search store ls) i).2 =
      (ToolManager.run_tool (.search store ls') i).2) := by
  cases hb : ToolManager.course_search_bind i with
  | error e =>
    left
    intro ls
    simp [ToolManager.run_tool, hb]
  | ok args =>
    obtain ⟨q, cn, ln⟩ := args
    rcases course_search_execute_snd store q cn ln with h | h
    · left
      intro ls
      simp [ToolManager.run_tool, hb, h ls]
    · right
      intro ls ls'
      simp only [ToolManager.run_tool, hb]
      rw [h ls ls']

/-- Dispatch on an outline tool never changes the tool state. -/
theorem run_tool_outline_snd (store : VectorStore) (i : Input) :
    (ToolManager.run_tool (.outline store) i).2 = .outline store := by
  cases hb : ToolManager.course_outline_bind i <;> simp [ToolManager.run_tool, hb]

/-- Verification helper lemma: `sources_at` steps through a cons cell. -/
theorem sources_at_cons (e : String × RegisteredTool)
    (rest : ToolManager.Tools) (k : Nat) :
    ToolManager.sources_at (e :: rest) (k + 1) = ToolManager.sources_at rest k :=
  rfl

/-- Two registries that agree after a sources reset and agree on every
`last_sources` value are equal. -/
theorem tools_ext : ∀ (σ σ' : ToolManager.Tools),
    ToolManager.reset_sources σ = ToolManager.reset_sources σ' →
    (∀ k, ToolManager.sources_at σ k = ToolManager.sources_at σ' k) →
    σ = σ' := by
  intro σ
  induction σ with
  | nil =>
    intro σ' hr _
    cases σ' with
    | nil => rfl
    | cons e' rest' => simp [ToolManager.reset_sources] at hr
  | cons e rest ih =>
    intro σ' hr hs
    cases σ' with
    | nil => simp [ToolManager.reset_sources] at hr
    | cons e' rest' =>
      simp only [ToolManager.reset_sources, List.map_cons, List.cons.injEq] at hr
      obtain ⟨hhead, htail⟩ := hr
      have htl : rest = rest' := by
        refine ih rest' htail (fun k => ?_)
        have hk := hs (k + 1)
        simpa [sources_at_cons] using hk
      subst htl
      have h0 := hs 0
      obtain ⟨k1, t1⟩ := e
      obtain ⟨k2, t2⟩ := e'
      cases t1 with
      | search st1 ls1 =>
        cases t2 with
        | search st2 ls2 =>
          simp only [ToolManager.reset_entry, Prod.mk.injEq,
            RegisteredTool.search.injEq] at hhead
          obtain ⟨hk, hst, _⟩ := hhead
          subst hk
          subst hst
          simp only [ToolManager.sources_at, List.get?] at h0
          rw [h0]
        | outline st2 => simp [ToolManager.reset_entry] at hhead
      | outline st1 =>
        cases t2 with
        | search st2 ls2 => simp [ToolManager.reset_entry] at hhead
        | outline st2 =>
          simp only [ToolManager.reset_entry, Prod.mk.injEq,
            RegisteredTool.outline.injEq] at hhead
          obtain ⟨hk, hst⟩ := hhead
          subst hk
          subst hst
          rfl

/-- Wrote-or-kept relations compose along successive updates. -/
theorem wroteOrKept_trans {σ σ' τ τ' ρ ρ' : ToolManager.Tools}
    (h1 : ToolManager.WroteOrKept σ σ' τ τ')
    (h2 : ToolManager.WroteOrKept τ τ' ρ ρ') :
    ToolManager.WroteOrKept σ σ' ρ ρ' := by
  intro k
  rcases h2 k with h | ⟨ha, hb⟩
  · left
    exact h
  · rcases h1 k with h' | ⟨hc, hd⟩
    · left
      rw [ha, hb, h']
    · right
      exact ⟨ha.trans hc, hb.trans hd⟩

/-- Untouched registries are trivially in the wrote-or-kept relation. -/
theorem wroteOrKept_refl (σ σ' : ToolManager.Tools) :
    ToolManager.WroteOrKept σ σ' σ σ' :=
  fun _ => Or.inr ⟨rfl, rfl⟩

/-- Registry entries equal after a sources reset have the same key and the
same kind of tool over the same store. -/
theorem reset_entry_eq_elim {k1 k2 : String} {t1 t2 : RegisteredTool}
    (h : ToolManager.reset_entry (k1, t1) = ToolManager.reset_entry (k2, t2)) :
    k1 = k2 ∧ ((∃ st ls1 ls2, t1 = .search st ls1 ∧ t2 = .search st ls2) ∨
      (∃ st, t1 = .outline st ∧ t2 = .outline st)) := by
  cases t1 with
  | search st1 ls1 =>
    cases t2 with
    | search st2 ls2 =>
      simp only [ToolManager.reset_entry, Prod.mk.injEq,
        RegisteredTool.search.injEq] at h
      refine ⟨h.1, Or.inl ⟨st1, ls1, ls2, rfl, ?_⟩⟩
      rw [h.2.1]
    | outline st2 => exact absurd h (by simp [ToolManager.reset_entry])
  | outline st1 =>
    cases t2 with
    | search st2 ls2 => exact absurd h (by simp [ToolManager.reset_entry])
    | outline st2 =>
      simp only [ToolManager.reset_entry, Prod.mk.injEq,
        RegisteredTool.outline.injEq] at h
      refine ⟨h.1, Or.inr ⟨st1, rfl, ?_⟩⟩
      rw [h.2]

/-- Core twin lemma for one registry dispatch: on reset-equal registries the
same call returns the same result, preserves the reset image on each side,
and relates the two post-states by wrote-or-kept. -/
theorem execute_tool_twin (n : String) (i : Input) :
    ∀ (σ σ' : ToolManager.Tools),
      ToolManager.reset_sources σ = ToolManager.reset_sources σ' →
      (ToolManager.execute_tool σ n i).1 = (ToolManager.execute_tool σ' n i).1 ∧
      ToolManager.reset_sources (ToolManager.execute_tool σ n i).2 =
        ToolManager.reset_sources σ ∧
      ToolManager.reset_sources (ToolManager.execute_tool σ' n i).2 =
        ToolManager.reset_sources σ' ∧
      ToolManager.WroteOrKept σ σ' (ToolManager.execute_tool σ n i).2
        (ToolManager.execute_tool σ' n i).2 := by
  intro σ
  induction σ with
  | nil =>
    intro σ' hr
    cases σ' with
    | cons e' rest' => simp [ToolManager.reset_sources] at hr
    | nil => exact ⟨rfl, rfl, rfl, wroteOrKept_refl _ _⟩
  | cons e rest ih =>
    intro σ' hr
    cases σ' with
    | nil => simp [ToolManager.reset_sources] at hr
    | cons e' rest' =>
      simp only [ToolManager.reset_sources, List.map_cons, List.cons.injEq] at hr
      obtain ⟨hhead, htail⟩ := hr
      obtain ⟨k1, t1⟩ := e
      obtain ⟨k2, t2⟩ := e'
      obtain ⟨hk12, hkind⟩ := reset_entry_eq_elim hhead
      subst hk12
      have htail' : ToolManager.reset_sources rest =
          ToolManager.reset_sources rest' := htail
      cases hk : (k1 == n) with
      | true =>
        rcases hkind with ⟨st, ls1, ls2, ht1, ht2⟩ | ⟨st, ht1, ht2⟩
        · subst ht1
          subst ht2
          obtain ⟨u1, hu1⟩ := run_tool_search_shape st i ls1
          obtain ⟨u2, hu2⟩ := run_tool_search_shape st i ls2
          refine ⟨?_, ?_, ?_, ?_⟩
          · simp only [ToolManager.execute_tool, hk, if_true]
            exact run_tool_search_fst st i ls1 ls2
          · simp only [ToolManager.execute_tool, hk, if_true, hu1,
              ToolManager.reset_sources, List.map_cons, ToolManager.reset_entry]
          · simp only [ToolManager.execute_tool, hk, if_true, hu2,
              ToolManager.reset_sources, List.map_cons, ToolManager.reset_entry]
          · rcases run_tool_search_upd st i with hid | hconst
            · simp only [ToolManager.execute_tool, hk, if_true, hid ls1, hid ls2]
              exact wroteOrKept_refl _ _
            · intro k
              cases k with
              | zero =>
                left
                simp only [ToolManager.execute_tool, hk, if_true,
                  hconst ls1 ls2, ToolManager.sources_at, List.get?]
              | succ j =>
                right
                constructor
                · simp only [ToolManager.execute_tool, hk, if_true]
                  rfl
                · simp only [ToolManager.execute_tool, hk, if_true]
                  rfl
        · subst ht1
          subst ht2
          refine ⟨?_, ?_, ?_, ?_⟩
          · simp only [ToolManager.execute_tool, hk, if_true]
          · simp only [ToolManager.execute_tool, hk, if_true,
              run_tool_outline_snd st i, ToolManager.reset_sources, List.map_cons,
              ToolManager.reset_entry]
          · simp only [ToolManager.execute_tool, hk, if_true,
              run_tool_outline_snd st i, ToolManager.reset_sources, List.map_cons,
              ToolManager.reset_entry]
          · simp only [ToolManager.execute_tool, hk, if_true,
              run_tool_outline_snd st i]
            exact wroteOrKept_refl _ _
      | false =>
        obtain ⟨ifst, ires, ires', iwk⟩ := ih rest' htail'
        refine ⟨?_, ?_, ?_, ?_⟩
        · simp only [ToolManager.execute_tool, hk, Bool.false_eq_true, if_false]
          exact ifst
        · simp only [ToolManager.reset_sources] at ires
          simp only [ToolManager.execute_tool, hk, Bool.false_eq_true, if_false,
            ToolManager.reset_sources, List.map_cons]
          rw [ires]
        · simp only [ToolManager.reset_sources] at ires'
          simp only [ToolManager.execute_tool, hk, Bool.false_eq_true, if_false,
            ToolManager.reset_sources, List.map_cons]
          rw [ires']
        · intro k
          cases k with
          | zero =>
            right
            constructor
            · simp only [ToolManager.execute_tool, hk, Bool.false_eq_true,
                if_false]
              rfl
            · simp only [ToolManager.execute_tool, hk, Bool.false_eq_true,
                if_false]
              rfl
          | succ j =>
            have hj := iwk j
            simpa only [ToolManager.execute_tool, hk, Bool.false_eq_true,
              if_false, sources_at_cons] using hj

/-- One stateful loop iteration when the model collaborator raises. -/
theorem tool_loop_st_step_err (client : Client) (s : String) (T : Bool)
    (fuel : Nat) (msgs : List Message) (cur : Option Completion)
    (rc calls batches : Nat) (e : String) (σ : ToolManager.Tools)
    (h : client ⟨s, msgs, T⟩ = .error e) :
    tool_loop_st client s T (fuel + 1) msgs cur rc calls batches σ =
      (.ret ("I encountered an error while processing your request: " ++ e)
        (calls + 1) batches rc msgs, σ) := by
  simp [tool_loop_st, h]

/-- One stateful loop iteration when the completion is a direct answer. -/
theorem tool_loop_st_step_done (client : Client) (s : String) (T : Bool)
    (fuel : Nat) (msgs : List Message) (cur : Option Completion)
    (rc calls batches : Nat) (r : Completion) (σ : ToolManager.Tools)
    (h : client ⟨s, msgs, T⟩ = .ok r) (h2 : r.stop_reason ≠ "tool_use") :
    tool_loop_st client s T (fuel + 1) msgs cur rc calls batches σ =
      (.brk (some r) (calls + 1) batches rc msgs, σ) := by
  simp [tool_loop_st, h, h2]

/-- One completed stateful tool round. -/
theorem tool_loop_st_step_round (client : Client) (s : String) (T : Bool)
    (fuel : Nat) (msgs : List Message) (cur : Option Completion)
    (rc calls batches : Nat) (r : Completion) (ts : List ToolResultBlock)
    (σ σ' : ToolManager.Tools)
    (h : client ⟨s, msgs, T⟩ = .ok r) (h2 : r.stop_reason = "tool_use")
    (h3 : execute_all_tools_st r.content σ = (.ok ts, σ')) :
    tool_loop_st client s T (fuel + 1) msgs cur rc calls batches σ =
      tool_loop_st client s T fuel (after_round msgs r ts)
        (some r) (rc + 1) (calls + 1) (batches + 1) σ' := by
  simp [tool_loop_st, h, h2, h3, after_round]

/-- Twin lemma for one stateful batch: on reset-equal registries the same
content yields the same batch outcome, preserves each reset image, and the
post-states are wrote-or-kept. -/
theorem execute_all_tools_st_twin :
    ∀ (content : List ContentBlock) (σ σ' : ToolManager.Tools),
      ToolManager.reset_sources σ = ToolManager.reset_sources σ' →
      (execute_all_tools_st content σ).1 = (execute_all_tools_st content σ').1 ∧
      ToolManager.reset_sources (execute_all_tools_st content σ).2 =
        ToolManager.reset_sources σ ∧
      ToolManager.reset_sources (execute_all_tools_st content σ').2 =
        ToolManager.reset_sources σ' ∧
      ToolManager.WroteOrKept σ σ' (execute_all_tools_st content σ).2
        (execute_all_tools_st content σ').2 := by
  intro content
  induction content with
  | nil =>
    intro σ σ' hr
    exact ⟨rfl, rfl, rfl, wroteOrKept_refl _ _⟩
  | cons b rest ih =>
    intro σ σ' hr
    cases b with
    | text t => simpa [execute_all_tools_st] using ih σ σ' hr
    | tool_use id n i =>
      obtain ⟨hfst, hres, hres', hwk⟩ := execute_tool_twin n i σ σ' hr
      rcases hout : ToolManager.execute_tool σ n i with ⟨r, τ⟩
      rcases hout' : ToolManager.execute_tool σ' n i with ⟨r', τ'⟩
      rw [hout, hout'] at hfst
      rw [hout] at hres hwk
      rw [hout'] at hres' hwk
      dsimp only at hfst hres hres' hwk
      subst hfst
      cases r with
      | error e =>
        simp only [execute_all_tools_st, hout, hout']
        exact ⟨trivial, hres, hres', hwk⟩
      | ok sres =>
        cases hsh : errorShaped sres with
        | true =>
          simp only [execute_all_tools_st, hout, hout', hsh, if_true]
          exact ⟨trivial, hres, hres', hwk⟩
        | false =>
          have hrττ : ToolManager.reset_sources τ =
              ToolManager.reset_sources τ' := by
            rw [hres, hres', hr]
          obtain ⟨jfst, jres, jres', jwk⟩ := ih τ τ' hrττ
          rcases hj : execute_all_tools_st rest τ with ⟨er, m⟩
          rcases hj' : execute_all_tools_st rest τ' with ⟨er', m'⟩
          rw [hj, hj'] at jfst
          rw [hj] at jres jwk
          rw [hj'] at jres' jwk
          dsimp only at jfst jres jres' jwk
          subst jfst
          simp only [execute_all_tools_st, hout, hout', hsh, Bool.false_eq_true,
            if_false, hj, hj']
          cases er with
          | error e2 =>
            exact ⟨rfl, jres.trans hres, jres'.trans hres',
              wroteOrKept_trans hwk jwk⟩
          | ok results =>
            exact ⟨rfl, jres.trans hres, jres'.trans hres',
              wroteOrKept_trans hwk jwk⟩

/-- Twin lemma for the stateful loop: on reset-equal registries a run from
the same transcript produces the same loop outcome, preserves each reset
image, and the final registries are wrote-or-kept. -/
theorem tool_loop_st_twin (client : Client) (s : String) (T : Bool) :
    ∀ (fuel : Nat) (msgs : List Message) (cur : Option Completion)
      (rc calls batches : Nat) (σ σ' : ToolManager.Tools),
      ToolManager.reset_sources σ = ToolManager.reset_sources σ' →
      (tool_loop_st client s T fuel msgs cur rc calls batches σ).1 =
        (tool_loop_st client s T fuel msgs cur rc calls batches σ').1 ∧
      ToolManager.reset_sources
          (tool_loop_st client s T fuel msgs cur rc calls batches σ).2 =
        ToolManager.reset_sources σ ∧
      ToolManager.reset_sources
          (tool_loop_st client s T fuel msgs cur rc calls batches σ').2 =
        ToolManager.reset_sources σ' ∧
      ToolManager.WroteOrKept σ σ'
        (tool_loop_st client s T fuel msgs cur rc calls batches σ).2
        (tool_loop_st client s T fuel msgs cur rc calls batches σ').2 := by
  intro fuel
  induction fuel with
  | zero =>
    intro msgs cur rc calls batches σ σ' hr
    exact ⟨rfl, rfl, rfl, wroteOrKept_refl _ _⟩
  | succ f ihf =>
    intro msgs cur rc calls batches σ σ' hr
    rcases hc : client ⟨s, msgs, T⟩ with e | resp
    · rw [tool_loop_st_step_err client s T f msgs cur rc calls batches e σ hc,
        tool_loop_st_step_err client s T f msgs cur rc calls batches e σ' hc]
      exact ⟨rfl, rfl, rfl, wroteOrKept_refl _ _⟩
    · by_cases hstop : resp.stop_reason = "tool_use"
      · obtain ⟨bfst, bres, bres', bwk⟩ :=
          execute_all_tools_st_twin resp.content σ σ' hr
        rcases hb : execute_all_tools_st resp.content σ with ⟨br, τ⟩
        rcases hb' : execute_all_tools_st resp.content σ' with ⟨br', τ'⟩
        rw [hb, hb'] at bfst
        rw [hb] at bres bwk
        rw [hb'] at bres' bwk
        dsimp only at bfst bres bres' bwk
        subst bfst
        cases br with
        | error err =>
          rw [tool_loop_st_step_fail client s T f msgs cur rc calls batches resp
              err σ τ hc hstop hb,
            tool_loop_st_step_fail client s T f msgs cur rc calls batches resp
              err σ' τ' hc hstop hb']
          exact ⟨rfl, bres, bres', bwk⟩
        | ok ts =>
          have hrττ : ToolManager.reset_sources τ =
              ToolManager.reset_sources τ' := by
            rw [bres, bres', hr]
          obtain ⟨lfst, lres, lres', lwk⟩ := ihf (after_round msgs resp ts)
            (some resp) (rc + 1) (calls + 1) (batches + 1) τ τ' hrττ
          rw [tool_loop_st_step_round client s T f msgs cur rc calls batches
              resp ts σ τ hc hstop hb,
            tool_loop_st_step_round client s T f msgs cur rc calls batches
              resp ts σ' τ' hc hstop hb']
          exact ⟨lfst, lres.trans bres, lres'.trans bres',
            wroteOrKept_trans bwk lwk⟩
      · rw [tool_loop_st_step_done client s T f msgs cur rc calls batches resp
            σ hc hstop,
          tool_loop_st_step_done client s T f msgs cur rc calls batches resp
            σ' hc hstop]
        exact ⟨rfl, rfl, rfl, wroteOrKept_refl _ _⟩

/-- Twin lemma for a whole stateful run. -/
theorem generate_response_st_twin (client : Client) (q : String)
    (hist : Option String) (tools : Option (List String))
    (σ σ' : ToolManager.Tools)
    (hr : ToolManager.reset_sources σ = ToolManager.reset_sources σ') :
    (generate_response_st client q hist tools σ).1 =
      (generate_response_st client q hist tools σ').1 ∧
    ToolManager.reset_sources (generate_response_st client q hist tools σ).2 =
      ToolManager.reset_sources σ ∧
    ToolManager.reset_sources (generate_response_st client q hist tools σ').2 =
      ToolManager.reset_sources σ' ∧
    ToolManager.WroteOrKept σ σ' (generate_response_st client q hist tools σ).2
      (generate_response_st client q hist tools σ').2 := by
  obtain ⟨lfst, lres, lres', lwk⟩ := tool_loop_st_twin client
    (system_content_of hist) (truthyList tools) MAX_TOOL_ROUNDS
    [⟨"user", .text q⟩] none 0 0 0 σ σ' hr
  rcases hl : tool_loop_st client (system_content_of hist) (truthyList tools)
    MAX_TOOL_ROUNDS [⟨"user", .text q⟩] none 0 0 0 σ with ⟨out, m⟩
  rcases hl' : tool_loop_st client (system_content_of hist) (truthyList tools)
    MAX_TOOL_ROUNDS [⟨"user", .text q⟩] none 0 0 0 σ' with ⟨out', m'⟩
  rw [hl, hl'] at lfst
  rw [hl] at lres lwk
  rw [hl'] at lres' lwk
  dsimp only at lfst lres lres' lwk
  subst lfst
  unfold generate_response_st
  dsimp only
  rw [hl, hl']
  cases out with
  | ret result calls batches rounds msgs =>
    exact ⟨rfl, lres, lres', lwk⟩
  | brk curo calls batches rounds msgs =>
    cases curo with
    | none => exact ⟨rfl, lres, lres', lwk⟩
    | some resp =>
      by_cases hcond :
        (resp.stop_reason == "tool_use" && decide (MAX_TOOL_ROUNDS ≤ rounds)) = true
      · simp only [hcond, if_true]
        rcases hf : client ⟨system_content_of hist, msgs, truthyList tools⟩
          with e | final_response
        · exact ⟨rfl, lres, lres', lwk⟩
        · exact ⟨rfl, lres, lres', lwk⟩
      · simp only [Bool.not_eq_true] at hcond
        simp only [hcond, Bool.false_eq_true, if_false]
        exact ⟨trivial, lres, lres', lwk⟩

/-- Claim C8: two successive runs of `generate_response` with identical
arguments against the same deterministic collaborators and the same (shared,
mutable) tool manager yield identical output strings; the registry after the
second run equals the registry after the first, so the source accumulation
observed via `get_last_sources` after each run is identical. -/
theorem rerun_deterministic_and_idempotent (client : Client) (q : String)
    (hist : Option String) (tools : Option (List String))
    (σ0 : ToolManager.Tools) :
    ((generate_response_st client q hist tools
        (generate_response_st client q hist tools σ0).2).1).result =
      ((generate_response_st client q hist tools σ0).1).result ∧
    (generate_response_st client q hist tools
        (generate_response_st client q hist tools σ0).2).2 =
      (generate_response_st client q hist tools σ0).2 ∧
    ToolManager.get_last_sources
        (generate_response_st client q hist tools
          (generate_response_st client q hist tools σ0).2).2 =
      ToolManager.get_last_sources
        (generate_response_st client q hist tools σ0).2 := by
  have h0 := generate_response_st_twin client q hist tools σ0 σ0 rfl
  have hres1 : ToolManager.reset_sources
      (generate_response_st client q hist tools σ0).2 =
      ToolManager.reset_sources σ0 := h0.2.1
  obtain ⟨tfst, tres, tres', twk⟩ := generate_response_st_twin client q hist
    tools σ0 (generate_response_st client q hist tools σ0).2 hres1.symm
  have hstate : (generate_response_st client q hist tools
      (generate_response_st client q hist tools σ0).2).2 =
      (generate_response_st client q hist tools σ0).2 := by
    apply tools_ext
    · exact tres'
    · intro k
      rcases twk k with h | ⟨h1, h2⟩
      · exact h.symm
      · exact h2
  refine ⟨?_, hstate, ?_⟩
  · rw [← tfst]
  · rw [hstate]

/-- Witness for C5: the always-direct client answers in one call. -/
theorem no_tools_single_completion_witness :
    generate_response Demo.clientPlain "hello" none none none =
      ⟨"Direct answer.", 1, 0, 0, seed_messages "hello"⟩ := by
  have h := no_tools_single_completion Demo.clientPlain "hello" none none
    Demo.plain (by intro p _ r hr; cases hr; decide) rfl
  simpa using h

end Rag
